import Mathlib

/-!
# Streaming sessions of the ISA-L compressor / decompressor JNI adapters

Shallow embedding of `IsalCompressor.c` and `IsalDecompressor.c`: the step functions
(`Java_..._IsalCompressor_compressBytesDirect`,
`Java_..._IsalDecompressor_inflateBytesDirect`), the counters, and the `init` and
`reset` methods of both classes.

* The Java object (`thisj`) is a record of the fields the native code reads and
  writes through `GetIntField` / `SetIntField` / `SetBooleanField`.
* The native stream behind the `stream` handle is stored in the record itself;
  `none` is the null handle.
* The codec engine (`dlsym_isal_deflate`, `dlsym_isal_inflate`) is a parameter: a
  function from the stream state it is handed to the status it returns and the
  stream state it leaves behind.
* `jint` is a 32-bit two's complement integer, the cursor fields of the engine
  state are `uint32_t`; the conversions of the C expressions are explicit.
-/

namespace Isal

/-! ## Machine integers -/

/-- Conversion of an integer value to `jint` / `int` (32-bit two's complement). -/
def toJint (x : Int) : Int := (x + 2147483648) % 4294967296 - 2147483648

/-- Conversion of an integer value to `uint32_t`. -/
def toU32 (x : Int) : Int := x % 4294967296

/-- The value is representable as a `jint`. -/
def InJint (x : Int) : Prop := -2147483648 ≤ x ∧ x ≤ 2147483647

instance (x : Int) : Decidable (InJint x) := by
  unfold InJint; infer_instance

/-! ## JNI exceptions -/

/-- A Java exception pending in the JNI environment: class name and message
(`none` is the `NULL` message). -/
structure JavaException where
  cls : String
  msg : Option String
  deriving DecidableEq, Repr

/-- Modelled from the spec: the `THROW(env, exception_name, message)` helper of
`org_apache_hadoop.h` is not part of the sources; the spec says that such errors are
"surfaced synchronously from the call that detected it". It leaves an exception of
the given class and message pending and does not leave the native function. -/
def THROW (exception_name : String) (message : Option String) : Option JavaException :=
  some { cls := exception_name, msg := message }

/-- What a native step hands back to Java: the object with its fields as the call
left them, the returned `jint`, and the exception left pending (if any). -/
structure StepResult (α : Type) where
  obj : α
  ret : Int
  exc : Option JavaException
  deriving DecidableEq, Repr

/-! ## Compressor -/

/-- Modelled from the spec: `struct isal_zstate` is declared in the ISA-L header, of
which only the `state` member is used ("internal_machine_state"). -/
structure isal_zstate where
  state : Int
  deriving DecidableEq, Repr

/-- Modelled from the spec: `struct isal_zstream` is declared in the ISA-L header, not
in the sources. The spec lists the members the session reads and writes:
"{next_in, avail_in, next_out, avail_out, total_in, total_out,
internal_machine_state, end_of_stream}"; `level`, `level_buf`, `level_buf_size`,
`flush` and `gzip_flag` are the members `init` stores. Pointers are addresses,
`avail_in`, `avail_out`, `total_in`, `total_out` hold `uint32_t` values. -/
structure isal_zstream where
  next_in : Int
  avail_in : Int
  total_in : Int
  next_out : Int
  avail_out : Int
  total_out : Int
  level : Int
  level_buf : Int
  level_buf_size : Int
  end_of_stream : Int
  flush : Int
  gzip_flag : Int
  internal_state : isal_zstate
  deriving DecidableEq, Repr

/-- The constants of the ISA-L header that `compressBytesDirect` compares with: the
three case labels of its `switch` and the terminal state marker. They are
parameters of the model. -/
structure DeflateCodes where
  COMP_OK : Int
  INVALID_FLUSH : Int
  ISAL_INVALID_LEVEL : Int
  ZSTATE_END : Int
  deriving DecidableEq, Repr

/-- The case labels of one `switch` are pairwise different (C rejects a duplicate
case label). -/
def DeflateCodes.LabelsDistinct (K : DeflateCodes) : Prop :=
  K.COMP_OK ≠ K.INVALID_FLUSH ∧ K.COMP_OK ≠ K.ISAL_INVALID_LEVEL ∧
    K.INVALID_FLUSH ≠ K.ISAL_INVALID_LEVEL

instance (K : DeflateCodes) : Decidable K.LabelsDistinct := by
  unfold DeflateCodes.LabelsDistinct; infer_instance

/-- The values `igzip_lib.h` of ISA-L gives these constants (a concrete instance for
evaluation; `-5` is its `ISAL_INVALID_LEVEL_BUF`, which is none of them). -/
def isalDeflateCodes : DeflateCodes :=
  { COMP_OK := 0, INVALID_FLUSH := -7, ISAL_INVALID_LEVEL := -4, ZSTATE_END := 11 }

/-- The fields of the Java class `IsalCompressor` that the native code accesses.
`stream` is the native stream behind the `long` handle (`none`: handle `0`);
`uncompressedDirectBuf` and `compressedDirectBuf` are the addresses
`GetDirectBufferAddress` returns for the two buffers (`0`: `NULL`); the other
`int` fields hold `jint` values. -/
structure IsalCompressor where
  stream : Option isal_zstream
  uncompressedDirectBuf : Int
  uncompressedDirectBufLen : Int
  uncompressedDirectBufOff : Int
  compressedDirectBuf : Int
  directBufferSize : Int
  BufferSize : Int
  finish : Bool
  finished : Bool
  end_of_stream : Int
  deriving DecidableEq, Repr

/-- The block "Re-calibrate the isal_zstream" of `compressBytesDirect`. -/
def recalibrateDeflate (thisj : IsalCompressor) (stream : isal_zstream) : isal_zstream :=
  { stream with
    avail_in := toU32 thisj.uncompressedDirectBufLen
    end_of_stream := thisj.end_of_stream
    next_in := thisj.uncompressedDirectBuf + thisj.uncompressedDirectBufOff
    avail_out := toU32 thisj.BufferSize
    next_out := thisj.compressedDirectBuf }

/-- The `switch (rv)` of `compressBytesDirect`, on the stream the engine left. It
has no `default` label. -/
def compressSwitch (K : DeflateCodes) (rv : Int) (stream : isal_zstream)
    (thisj : IsalCompressor) : StepResult IsalCompressor :=
  if rv = K.COMP_OK then
    { obj :=
        { thisj with
          uncompressedDirectBufOff :=
            toJint (toU32 (toU32 thisj.uncompressedDirectBufOff
              + toU32 (toU32 thisj.uncompressedDirectBufLen - stream.avail_in)))
          uncompressedDirectBufLen := toJint stream.avail_in }
      ret := toJint (toU32 (toU32 thisj.BufferSize - stream.avail_out))
      exc := none }
  else if rv = K.INVALID_FLUSH then
    { obj := thisj, ret := 0, exc := THROW "java/lang/IllegalArgumentException" none }
  else if rv = K.ISAL_INVALID_LEVEL then
    { obj := thisj, ret := 0, exc := THROW "java/lang/IllegalArgumentException" none }
  else
    { obj := thisj, ret := 0, exc := none }

/-- Native method `IsalCompressor.compressBytesDirect`. -/
def compressBytesDirect (K : DeflateCodes)
    (dlsym_isal_deflate : isal_zstream → Int × isal_zstream)
    (thisj : IsalCompressor) : StepResult IsalCompressor :=
  match thisj.stream with
  | none => { obj := thisj, ret := 0, exc := THROW "java/lang/NullPointerException" none }
  | some stream =>
    if thisj.uncompressedDirectBuf = 0 then { obj := thisj, ret := 0, exc := none }
    else if thisj.compressedDirectBuf = 0 then { obj := thisj, ret := 0, exc := none }
    else
      let out := dlsym_isal_deflate (recalibrateDeflate thisj stream)
      let r := compressSwitch K out.1 out.2 thisj
      { obj :=
          { r.obj with
            stream := some out.2
            finished :=
              if out.2.internal_state.state = K.ZSTATE_END then true else r.obj.finished }
        ret := r.ret
        exc := r.exc }

/-- Native method `IsalCompressor.getBytesRead`. -/
def getBytesRead (stream : isal_zstream) : Int := stream.total_in

/-- Native method `IsalCompressor.getBytesWritten`. -/
def getBytesWritten (stream : isal_zstream) : Int := stream.total_out

/-! ## Decompressor -/

/-- Modelled from the spec: `struct inflate_state` is declared in the ISA-L header, not
in the sources. The members the session reads and writes are the cursors
`next_in`, `avail_in`, `next_out`, `avail_out`, the counter `total_out` and the
"internal block-state" `block_state` (the sources note that it has no `total_in`).
`avail_in`, `avail_out`, `total_out` hold `uint32_t` values. -/
structure inflate_state where
  next_out : Int
  avail_out : Int
  total_out : Int
  next_in : Int
  avail_in : Int
  block_state : Int
  deriving DecidableEq, Repr

/-- The constants of the ISA-L header that `inflateBytesDirect` compares with: the
six case labels of its `switch` and the terminal block state. They are parameters
of the model. -/
structure InflateCodes where
  ISAL_END_INPUT : Int
  ISAL_DECOMP_OK : Int
  ISAL_OUT_OVERFLOW : Int
  ISAL_INVALID_BLOCK : Int
  ISAL_INVALID_SYMBOL : Int
  ISAL_INVALID_LOOKBACK : Int
  ISAL_BLOCK_FINISH : Int
  deriving DecidableEq, Repr

/-- The list of the six case labels, in the order of the `switch`. -/
def InflateCodes.labels (K : InflateCodes) : List Int :=
  [K.ISAL_END_INPUT, K.ISAL_DECOMP_OK, K.ISAL_OUT_OVERFLOW, K.ISAL_INVALID_BLOCK,
    K.ISAL_INVALID_SYMBOL, K.ISAL_INVALID_LOOKBACK]

/-- The case labels of one `switch` are pairwise different (C rejects a duplicate
case label). -/
def InflateCodes.LabelsDistinct (K : InflateCodes) : Prop := K.labels.Nodup

instance (K : InflateCodes) : Decidable K.LabelsDistinct := by
  unfold InflateCodes.LabelsDistinct; infer_instance

/-- The values `igzip_lib.h` of ISA-L gives these constants (a concrete instance for
evaluation; `-4` is its `ISAL_INVALID_WRAPPER`, which is none of them). -/
def isalInflateCodes : InflateCodes :=
  { ISAL_END_INPUT := 1, ISAL_DECOMP_OK := 0, ISAL_OUT_OVERFLOW := 2,
    ISAL_INVALID_BLOCK := -1, ISAL_INVALID_SYMBOL := -2, ISAL_INVALID_LOOKBACK := -3,
    ISAL_BLOCK_FINISH := 5 }

/-- The fields of the Java class `IsalDecompressor` that the native code accesses.
`stream` is the native state behind the `long` handle (`none`: handle `0`);
`compressedDirectBuf` and `uncompressedDirectBuf` are the addresses
`GetDirectBufferAddress` returns (`0`: `NULL`); the other `int` fields hold `jint`
values. -/
structure IsalDecompressor where
  stream : Option inflate_state
  compressedDirectBuf : Int
  compressedDirectBufLen : Int
  compressedDirectBufOff : Int
  uncompressedDirectBuf : Int
  directBufferSize : Int
  finished : Bool
  deriving DecidableEq, Repr

/-- The block "Re-calibrate the inflate_state" of `inflateBytesDirect`. -/
def recalibrateInflate (thisj : IsalDecompressor) (state : inflate_state) : inflate_state :=
  { state with
    avail_in := toU32 thisj.compressedDirectBufLen
    next_in := thisj.compressedDirectBuf + thisj.compressedDirectBufOff
    avail_out := toU32 thisj.directBufferSize
    next_out := thisj.uncompressedDirectBuf }

/-- The body of `case ISAL_DECOMP_OK:`, which `case ISAL_END_INPUT:` falls through
into. -/
def inflateProgress (state : inflate_state) (thisj : IsalDecompressor) :
    StepResult IsalDecompressor :=
  { obj :=
      { thisj with
        compressedDirectBufOff :=
          toJint (toU32 (toU32 thisj.compressedDirectBufOff
            + toU32 (toU32 thisj.compressedDirectBufLen - state.avail_in)))
        compressedDirectBufLen := toJint state.avail_in }
    ret := toJint (toU32 (toU32 thisj.directBufferSize - state.avail_out))
    exc := none }

/-- The `switch (rv)` of `inflateBytesDirect`, on the state the engine left. It has
no `default` label. -/
def inflateSwitch (K : InflateCodes) (rv : Int) (state : inflate_state)
    (thisj : IsalDecompressor) : StepResult IsalDecompressor :=
  if rv = K.ISAL_END_INPUT then inflateProgress state thisj
  else if rv = K.ISAL_DECOMP_OK then inflateProgress state thisj
  else if rv = K.ISAL_OUT_OVERFLOW then
    { obj := thisj, ret := 0, exc := THROW "java/io/IOException" (some "ISAL_OUT_OVERFLOW") }
  else if rv = K.ISAL_INVALID_BLOCK then
    { obj := thisj, ret := 0, exc := THROW "java/io/IOException" (some "ISAL_INVALID_BLOCK") }
  else if rv = K.ISAL_INVALID_SYMBOL then
    { obj := thisj, ret := 0, exc := THROW "java/io/IOException" (some "ISAL_INVALID_SYMBOL") }
  else if rv = K.ISAL_INVALID_LOOKBACK then
    { obj := thisj, ret := 0,
      exc := THROW "java/io/IOException" (some "ISAL_INVALID_LOOKBACK") }
  else
    { obj := thisj, ret := 0, exc := none }

/-- Native method `IsalDecompressor.inflateBytesDirect`. The block state is looked
at, and `finished` set, before the `switch` on the status. -/
def inflateBytesDirect (K : InflateCodes)
    (dlsym_isal_inflate : inflate_state → Int × inflate_state)
    (thisj : IsalDecompressor) : StepResult IsalDecompressor :=
  match thisj.stream with
  | none => { obj := thisj, ret := 0, exc := THROW "java/lang/NullPointerException" none }
  | some state =>
    if thisj.compressedDirectBuf = 0 then { obj := thisj, ret := 0, exc := none }
    else
      let out := dlsym_isal_inflate (recalibrateInflate thisj state)
      let thisj1 : IsalDecompressor :=
        { thisj with
          stream := some out.2
          finished := if out.2.block_state = K.ISAL_BLOCK_FINISH then true else thisj.finished }
      inflateSwitch K out.1 out.2 thisj1

/-- Native method `IsalDecompressor.getBytesWritten`. -/
def inflateGetBytesWritten (state : inflate_state) : Int := state.total_out

/-- Native method `IsalDecompressor.getRemaining`: the `uint32_t` member `avail_in`,
returned as `jint`. -/
def getRemaining (state : inflate_state) : Int := toJint state.avail_in

/-! ## Engine steps and sequences of calls -/

/-- The status the deflate engine returns in this call, `none` when the call returns
before it invokes the engine (null handle, null buffer address). -/
def deflateStatus (dlsym_isal_deflate : isal_zstream → Int × isal_zstream)
    (thisj : IsalCompressor) : Option Int :=
  match thisj.stream with
  | none => none
  | some stream =>
    if thisj.uncompressedDirectBuf = 0 then none
    else if thisj.compressedDirectBuf = 0 then none
    else some (dlsym_isal_deflate (recalibrateDeflate thisj stream)).1

/-- The status the inflate engine returns in this call, `none` when the call returns
before it invokes the engine. -/
def inflateStatus (dlsym_isal_inflate : inflate_state → Int × inflate_state)
    (thisj : IsalDecompressor) : Option Int :=
  match thisj.stream with
  | none => none
  | some state =>
    if thisj.compressedDirectBuf = 0 then none
    else some (dlsym_isal_inflate (recalibrateInflate thisj state)).1

/-- What is observed of one call in a sequence: the engine status (if the engine was
invoked), the amount by which the call advanced the input offset, and the byte
count it returned. -/
structure CallRecord where
  status : Option Int
  advanced : Int
  returned : Int
  deriving DecidableEq, Repr

/-- One call of `compressBytesDirect` in a sequence: the values of the Java fields at
the call (its `stream` entry is not used: the native stream is carried from call to
call) and the behaviour of the engine in this call. -/
structure CompressCall where
  fields : IsalCompressor
  engine : isal_zstream → Int × isal_zstream

/-- A sequence of `compressBytesDirect` calls on one native stream: the stream after
the last call and the record of every call. -/
def compressCalls (K : DeflateCodes) :
    List CompressCall → Option isal_zstream → Option isal_zstream × List CallRecord
  | [], st => (st, [])
  | c :: cs, st =>
    let thisj : IsalCompressor := { c.fields with stream := st }
    let r := compressBytesDirect K c.engine thisj
    let rest := compressCalls K cs r.obj.stream
    (rest.1,
      { status := deflateStatus c.engine thisj
        advanced := r.obj.uncompressedDirectBufOff - thisj.uncompressedDirectBufOff
        returned := r.ret } :: rest.2)

/-- One call of `inflateBytesDirect` in a sequence. -/
structure InflateCall where
  fields : IsalDecompressor
  engine : inflate_state → Int × inflate_state

/-- A sequence of `inflateBytesDirect` calls on one native state. -/
def inflateCalls (K : InflateCodes) :
    List InflateCall → Option inflate_state → Option inflate_state × List CallRecord
  | [], st => (st, [])
  | c :: cs, st =>
    let thisj : IsalDecompressor := { c.fields with stream := st }
    let r := inflateBytesDirect K c.engine thisj
    let rest := inflateCalls K cs r.obj.stream
    (rest.1,
      { status := inflateStatus c.engine thisj
        advanced := r.obj.compressedDirectBufOff - thisj.compressedDirectBufOff
        returned := r.ret } :: rest.2)

/-- The deflate engine keeps its counters: every step adds the input bytes it
consumed to `total_in` and the output bytes it produced to `total_out`, whatever
status it returns. -/
def DeflateAccounts (engine : isal_zstream → Int × isal_zstream) : Prop :=
  ∀ s : isal_zstream,
    (engine s).2.total_in = s.total_in + (s.avail_in - (engine s).2.avail_in) ∧
    (engine s).2.total_out = s.total_out + (s.avail_out - (engine s).2.avail_out)

/-- The deflate engine moves its input cursor forward only: after a step `avail_in`
is between `0` and what the step was started with. -/
def DeflateInputForward (engine : isal_zstream → Int × isal_zstream) : Prop :=
  ∀ s : isal_zstream,
    0 ≤ s.avail_in → 0 ≤ (engine s).2.avail_in ∧ (engine s).2.avail_in ≤ s.avail_in

/-- The deflate engine moves its output cursor forward only: after a step `avail_out`
is between `0` and what the step was started with. -/
def DeflateOutputForward (engine : isal_zstream → Int × isal_zstream) : Prop :=
  ∀ s : isal_zstream,
    0 ≤ s.avail_out → 0 ≤ (engine s).2.avail_out ∧ (engine s).2.avail_out ≤ s.avail_out

/-- The deflate engine moves both cursors forward only. -/
def DeflateForward (engine : isal_zstream → Int × isal_zstream) : Prop :=
  DeflateInputForward engine ∧ DeflateOutputForward engine

/-- The inflate engine keeps its counter: every step adds the output bytes it
produced to `total_out`, whatever status it returns. -/
def InflateAccounts (engine : inflate_state → Int × inflate_state) : Prop :=
  ∀ s : inflate_state,
    (engine s).2.total_out = s.total_out + (s.avail_out - (engine s).2.avail_out)

/-- The inflate engine moves its input cursor forward only. -/
def InflateInputForward (engine : inflate_state → Int × inflate_state) : Prop :=
  ∀ s : inflate_state,
    0 ≤ s.avail_in → 0 ≤ (engine s).2.avail_in ∧ (engine s).2.avail_in ≤ s.avail_in

/-- The inflate engine moves its output cursor forward only. -/
def InflateOutputForward (engine : inflate_state → Int × inflate_state) : Prop :=
  ∀ s : inflate_state,
    0 ≤ s.avail_out → 0 ≤ (engine s).2.avail_out ∧ (engine s).2.avail_out ≤ s.avail_out

/-- The inflate engine moves both cursors forward only. -/
def InflateForward (engine : inflate_state → Int × inflate_state) : Prop :=
  InflateInputForward engine ∧ InflateOutputForward engine

/-- The input window of a compressor call is that of a Java buffer: offset and length
are not negative and the window ends within a buffer whose capacity is an `int`
("offset + length <= capacity of input buffer"). -/
def CompressInputWindow (thisj : IsalCompressor) : Prop :=
  0 ≤ thisj.uncompressedDirectBufOff ∧ 0 ≤ thisj.uncompressedDirectBufLen ∧
    thisj.uncompressedDirectBufOff + thisj.uncompressedDirectBufLen ≤ 2147483647

instance (thisj : IsalCompressor) : Decidable (CompressInputWindow thisj) := by
  unfold CompressInputWindow; infer_instance

/-- The output capacity of a compressor call is that of a Java buffer: a non-negative
`int`. -/
def CompressOutputWindow (thisj : IsalCompressor) : Prop :=
  0 ≤ thisj.BufferSize ∧ thisj.BufferSize ≤ 2147483647

instance (thisj : IsalCompressor) : Decidable (CompressOutputWindow thisj) := by
  unfold CompressOutputWindow; infer_instance

/-- Both windows of a compressor call are those of Java buffers. -/
def CompressWindows (thisj : IsalCompressor) : Prop :=
  CompressInputWindow thisj ∧ CompressOutputWindow thisj

instance (thisj : IsalCompressor) : Decidable (CompressWindows thisj) := by
  unfold CompressWindows; infer_instance

/-- The input window of a decompressor call is that of a Java buffer. -/
def InflateInputWindow (thisj : IsalDecompressor) : Prop :=
  0 ≤ thisj.compressedDirectBufOff ∧ 0 ≤ thisj.compressedDirectBufLen ∧
    thisj.compressedDirectBufOff + thisj.compressedDirectBufLen ≤ 2147483647

instance (thisj : IsalDecompressor) : Decidable (InflateInputWindow thisj) := by
  unfold InflateInputWindow; infer_instance

/-- The output capacity of a decompressor call is that of a Java buffer. -/
def InflateOutputWindow (thisj : IsalDecompressor) : Prop :=
  0 ≤ thisj.directBufferSize ∧ thisj.directBufferSize ≤ 2147483647

instance (thisj : IsalDecompressor) : Decidable (InflateOutputWindow thisj) := by
  unfold InflateOutputWindow; infer_instance

/-- Both windows of a decompressor call are those of Java buffers. -/
def InflateWindows (thisj : IsalDecompressor) : Prop :=
  InflateInputWindow thisj ∧ InflateOutputWindow thisj

instance (thisj : IsalDecompressor) : Decidable (InflateWindows thisj) := by
  unfold InflateWindows; infer_instance

/-! ## Concrete engines and sessions for evaluation -/

/-- A deflate engine step that consumes up to `n` input bytes, produces up to `m`
output bytes, keeps its counters, returns `rv` and leaves the machine state `st`. -/
def boundedDeflate (n m rv st : Int) (s : isal_zstream) : Int × isal_zstream :=
  (rv,
    { s with
      avail_in := s.avail_in - min n s.avail_in
      total_in := s.total_in + min n s.avail_in
      avail_out := s.avail_out - min m s.avail_out
      total_out := s.total_out + min m s.avail_out
      internal_state := { state := st } })

/-- An inflate engine step that consumes up to `n` input bytes, produces up to `m`
output bytes, keeps its counter, returns `rv` and leaves the block state `st`. -/
def boundedInflate (n m rv st : Int) (s : inflate_state) : Int × inflate_state :=
  (rv,
    { s with
      avail_in := s.avail_in - min n s.avail_in
      avail_out := s.avail_out - min m s.avail_out
      total_out := s.total_out + min m s.avail_out
      block_state := st })

/-- A deflate engine step that reports `i` more bytes of input and `o` more bytes of
output space than it was handed, and returns `rv`. -/
def growingDeflate (i o rv : Int) (s : isal_zstream) : Int × isal_zstream :=
  (rv, { s with avail_in := s.avail_in + i, avail_out := s.avail_out + o })

/-- An inflate engine step that reports `i` more bytes of input and `o` more bytes of
output space than it was handed, and returns `rv`. -/
def growingInflate (i o rv : Int) (s : inflate_state) : Int × inflate_state :=
  (rv, { s with avail_in := s.avail_in + i, avail_out := s.avail_out + o })

/-- A deflate stream with all members zero. -/
def zeroStream : isal_zstream :=
  { next_in := 0, avail_in := 0, total_in := 0, next_out := 0, avail_out := 0,
    total_out := 0, level := 0, level_buf := 0, level_buf_size := 0, end_of_stream := 0,
    flush := 0, gzip_flag := 0, internal_state := { state := 0 } }

/-- An inflate state with all members zero. -/
def zeroState : inflate_state :=
  { next_out := 0, avail_out := 0, total_out := 0, next_in := 0, avail_in := 0,
    block_state := 0 }

/-- A compressor object with the input window `(off, len)`, output capacity `cap`,
the given `finished` flag, a fresh stream and both buffers in place. -/
def compressorAt (off len cap : Int) (finished : Bool) : IsalCompressor :=
  { stream := some zeroStream, uncompressedDirectBuf := 4096,
    uncompressedDirectBufLen := len, uncompressedDirectBufOff := off,
    compressedDirectBuf := 8192, directBufferSize := cap, BufferSize := cap,
    finish := false, finished := finished, end_of_stream := 0 }

/-- A decompressor object with the input window `(off, len)`, output capacity `cap`,
the given `finished` flag, a fresh state and both buffers in place. -/
def decompressorAt (off len cap : Int) (finished : Bool) : IsalDecompressor :=
  { stream := some zeroState, compressedDirectBuf := 4096, compressedDirectBufLen := len,
    compressedDirectBufOff := off, uncompressedDirectBuf := 8192,
    directBufferSize := cap, finished := finished }

/-! ## Creating and resetting the native state -/

/-- How a native `init` ends: the process is left through `exit(0)`, or the call
returns a handle (`none`: the handle `0`) and possibly a pending exception. -/
inductive InitOutcome (σ : Type) where
  | exited : InitOutcome σ
  | returned (stream : Option σ) (exc : Option JavaException) : InitOutcome σ
  deriving DecidableEq, Repr

/-- The call `memset((void *)stream, 0, sizeof(struct isal_zstream))`: whatever the
block held, every member is zero afterwards. -/
def memsetStream (_stream : isal_zstream) : isal_zstream := zeroStream

/-- The call `memset((void*)state, 0, sizeof(struct inflate_state))`. -/
def memsetState (_state : inflate_state) : inflate_state := zeroState

/-- Native method `IsalCompressor.init`. `malloc_stream` is what
`malloc(sizeof(struct isal_zstream))` returns (`none`: `NULL`, otherwise a block with
arbitrary content), `malloc_level_buf` the address `malloc(ISAL_DEF_LVL1_DEFAULT)`
returns (`0`: `NULL`), `ISAL_DEF_LVL1_DEFAULT` the constant of the ISA-L header, and
`dlsym_isal_deflate_init` the engine's initialisation, whose return value the code
does not use. The arguments go through the globals `LEVEL`, `FLUSH`, `GZIP_FLAG`
and are stored in the stream as passed. -/
def init (ISAL_DEF_LVL1_DEFAULT : Int)
    (dlsym_isal_deflate_init : isal_zstream → isal_zstream)
    (malloc_stream : Option isal_zstream) (malloc_level_buf : Int)
    (level flush gzip_flag : Int) : InitOutcome isal_zstream :=
  let LEVEL := level
  let FLUSH := flush
  let GZIP_FLAG := gzip_flag
  match malloc_stream with
  | none => InitOutcome.returned none (THROW "java/lang/OutOfMemoryError" none)
  | some stream =>
    let stream := memsetStream stream
    let stream := dlsym_isal_deflate_init stream
    if LEVEL = 1 then
      let stream : isal_zstream :=
        { stream with
          level := 1
          level_buf := malloc_level_buf
          level_buf_size := ISAL_DEF_LVL1_DEFAULT }
      if stream.level_buf = 0 then InitOutcome.exited
      else
        InitOutcome.returned
          (some { stream with gzip_flag := GZIP_FLAG, level := LEVEL, flush := FLUSH }) none
    else
      InitOutcome.returned
        (some { stream with gzip_flag := GZIP_FLAG, level := LEVEL, flush := FLUSH }) none

/-- Native method `IsalCompressor.reset`, on the stream behind the handle: the
engine's initialisation, and nothing else. -/
def reset (dlsym_isal_deflate_init : isal_zstream → isal_zstream)
    (stream : isal_zstream) : isal_zstream :=
  dlsym_isal_deflate_init stream

/-- The Java object after the native call `reset(stream)` on its handle. The method
is static and receives the handle only, so no field of the object is written;
`none` stands for the call on the handle `0`, which dereferences `NULL`. -/
def resetSession (dlsym_isal_deflate_init : isal_zstream → isal_zstream)
    (thisj : IsalCompressor) : Option IsalCompressor :=
  match thisj.stream with
  | none => none
  | some stream => some { thisj with stream := some (reset dlsym_isal_deflate_init stream) }

/-- Native method `IsalDecompressor.init`. `malloc_state` is what
`malloc(sizeof(struct inflate_state))` returns (`none`: `NULL`, otherwise a block
with arbitrary content). The engine's initialisation runs on the block as
allocated, and the block is zero-filled after it. -/
def inflateInit (dlsym_isal_inflate_init : inflate_state → inflate_state)
    (malloc_state : Option inflate_state) (_gzip_flag : Int) : InitOutcome inflate_state :=
  match malloc_state with
  | none => InitOutcome.returned none (THROW "java/lang/OutOfMemoryError" none)
  | some state =>
    let state := dlsym_isal_inflate_init state
    let state := memsetState state
    InitOutcome.returned (some state) none

/-- Native method `IsalDecompressor.reset`, on the state behind the handle. -/
def inflateReset (dlsym_isal_inflate_init : inflate_state → inflate_state)
    (state : inflate_state) : inflate_state :=
  dlsym_isal_inflate_init state

/-- An engine initialisation in the manner of `isal_deflate_init`: it sets the
counters, the machine state and the members `level`, `level_buf`, `level_buf_size`,
`end_of_stream`, `flush` and `gzip_flag` to zero. -/
def clearingDeflateInit (s : isal_zstream) : isal_zstream :=
  { s with
    total_in := 0, total_out := 0, level := 0, level_buf := 0, level_buf_size := 0,
    end_of_stream := 0, flush := 0, gzip_flag := 0, internal_state := { state := 0 } }

/-- An engine initialisation that writes `avail_in := 7` and `block_state := 3`. -/
def markingInflateInit (s : inflate_state) : inflate_state :=
  { s with avail_in := 7, block_state := 3 }

/-- The handle a native `init` hands to Java (`none`: the handle `0`, or no return at
all). -/
def InitOutcome.handle {σ : Type} : InitOutcome σ → Option σ
  | InitOutcome.exited => none
  | InitOutcome.returned stream _ => stream

/-! ## Basic facts on the conversions -/

theorem toJint_of_inJint (x : Int) (h : InJint x) : toJint x = x := by
  unfold InJint at h
  unfold toJint
  omega

theorem toU32_of_nonneg (x : Int) (h0 : 0 ≤ x) (h1 : x ≤ 4294967295) : toU32 x = x := by
  unfold toU32
  omega

/-- The offset expression of the `COMP_OK` / `ISAL_DECOMP_OK` case is the 32-bit
value of `off + (len - avail_in)`. -/
theorem offset_expr (off len a : Int) :
    toJint (toU32 (toU32 off + toU32 (toU32 len - a))) = toJint (off + (len - a)) := by
  unfold toJint toU32
  omega

/-- The returned expression is the 32-bit value of `cap - avail_out`. -/
theorem produced_expr (cap o : Int) :
    toJint (toU32 (toU32 cap - o)) = toJint (cap - o) := by
  unfold toJint toU32
  omega

/-! ## One step of the compressor -/

/-- C1: a `compressBytesDirect` call whose engine step returns `COMP_OK` sets the
input offset to `offset + (length - avail_in_after)`, the input length to
`avail_in_after`, and returns `capacity - avail_out_after`, each as the 32-bit
`jint` the field or the result holds. For the windows of Java buffers and cursors
that an `int` field can hold, the engine step was started with `avail_in = length`
and `avail_out = capacity`, the three values are exactly those integers, and
`offset + length` is the same before and after the call. -/
theorem C1_compress_step_reconciles_cursors (K : DeflateCodes)
    (dlsym_isal_deflate : isal_zstream → Int × isal_zstream)
    (thisj : IsalCompressor) (stream : isal_zstream)
    (hstream : thisj.stream = some stream)
    (hin : thisj.uncompressedDirectBuf ≠ 0) (hout : thisj.compressedDirectBuf ≠ 0)
    (hok : (dlsym_isal_deflate (recalibrateDeflate thisj stream)).1 = K.COMP_OK) :
    ((compressBytesDirect K dlsym_isal_deflate thisj).obj.uncompressedDirectBufOff
        = toJint (thisj.uncompressedDirectBufOff + (thisj.uncompressedDirectBufLen
            - (dlsym_isal_deflate (recalibrateDeflate thisj stream)).2.avail_in)) ∧
      (compressBytesDirect K dlsym_isal_deflate thisj).obj.uncompressedDirectBufLen
        = toJint (dlsym_isal_deflate (recalibrateDeflate thisj stream)).2.avail_in ∧
      (compressBytesDirect K dlsym_isal_deflate thisj).ret
        = toJint (thisj.BufferSize
            - (dlsym_isal_deflate (recalibrateDeflate thisj stream)).2.avail_out) ∧
      (compressBytesDirect K dlsym_isal_deflate thisj).exc = none) ∧
    (CompressWindows thisj →
      InJint (dlsym_isal_deflate (recalibrateDeflate thisj stream)).2.avail_in →
      0 ≤ (dlsym_isal_deflate (recalibrateDeflate thisj stream)).2.avail_in →
      InJint (dlsym_isal_deflate (recalibrateDeflate thisj stream)).2.avail_out →
      0 ≤ (dlsym_isal_deflate (recalibrateDeflate thisj stream)).2.avail_out →
      (recalibrateDeflate thisj stream).avail_in = thisj.uncompressedDirectBufLen ∧
      (recalibrateDeflate thisj stream).avail_out = thisj.BufferSize ∧
      (compressBytesDirect K dlsym_isal_deflate thisj).obj.uncompressedDirectBufOff
        = thisj.uncompressedDirectBufOff + (thisj.uncompressedDirectBufLen
            - (dlsym_isal_deflate (recalibrateDeflate thisj stream)).2.avail_in) ∧
      (compressBytesDirect K dlsym_isal_deflate thisj).obj.uncompressedDirectBufLen
        = (dlsym_isal_deflate (recalibrateDeflate thisj stream)).2.avail_in ∧
      (compressBytesDirect K dlsym_isal_deflate thisj).obj.uncompressedDirectBufOff
          + (compressBytesDirect K dlsym_isal_deflate thisj).obj.uncompressedDirectBufLen
        = thisj.uncompressedDirectBufOff + thisj.uncompressedDirectBufLen ∧
      (compressBytesDirect K dlsym_isal_deflate thisj).ret
        = thisj.BufferSize
            - (dlsym_isal_deflate (recalibrateDeflate thisj stream)).2.avail_out) := by
  have hA :
      (compressBytesDirect K dlsym_isal_deflate thisj).obj.uncompressedDirectBufOff
        = toJint (thisj.uncompressedDirectBufOff + (thisj.uncompressedDirectBufLen
            - (dlsym_isal_deflate (recalibrateDeflate thisj stream)).2.avail_in)) ∧
      (compressBytesDirect K dlsym_isal_deflate thisj).obj.uncompressedDirectBufLen
        = toJint (dlsym_isal_deflate (recalibrateDeflate thisj stream)).2.avail_in ∧
      (compressBytesDirect K dlsym_isal_deflate thisj).ret
        = toJint (thisj.BufferSize
            - (dlsym_isal_deflate (recalibrateDeflate thisj stream)).2.avail_out) ∧
      (compressBytesDirect K dlsym_isal_deflate thisj).exc = none := by
    simp [compressBytesDirect, hstream, hin, hout, compressSwitch, hok, offset_expr,
      produced_expr]
  refine ⟨hA, ?_⟩
  intro hw ha ha0 ho ho0
  obtain ⟨h1, h2, h3, _⟩ := hA
  obtain ⟨⟨w1, w2, w3⟩, w4, w5⟩ := hw
  unfold InJint at ha ho
  have e1 : (recalibrateDeflate thisj stream).avail_in = thisj.uncompressedDirectBufLen := by
    simp only [recalibrateDeflate]
    exact toU32_of_nonneg _ w2 (by omega)
  have e2 : (recalibrateDeflate thisj stream).avail_out = thisj.BufferSize := by
    simp only [recalibrateDeflate]
    exact toU32_of_nonneg _ w4 (by omega)
  rw [toJint_of_inJint _ (by unfold InJint; omega)] at h1
  rw [toJint_of_inJint _ (by unfold InJint; omega)] at h2
  rw [toJint_of_inJint _ (by unfold InJint; omega)] at h3
  refine ⟨e1, e2, h1, h2, ?_, h3⟩
  rw [h1, h2]
  omega

/-- Witness of C1: the input window `(10, 6)` and capacity `16`, with an engine step
that consumes 4 bytes and produces 5: the call moves the window to `(14, 2)` and
returns `5`. -/
theorem C1_compress_step_reconciles_cursors_witness :
    (compressBytesDirect isalDeflateCodes (boundedDeflate 4 5 0 0)
        (compressorAt 10 6 16 false)).obj.uncompressedDirectBufOff = 14 ∧
      (compressBytesDirect isalDeflateCodes (boundedDeflate 4 5 0 0)
        (compressorAt 10 6 16 false)).obj.uncompressedDirectBufLen = 2 ∧
      (compressBytesDirect isalDeflateCodes (boundedDeflate 4 5 0 0)
        (compressorAt 10 6 16 false)).ret = 5 := by
  have h := (C1_compress_step_reconciles_cursors isalDeflateCodes (boundedDeflate 4 5 0 0)
    (compressorAt 10 6 16 false) zeroStream rfl (by decide) (by decide) rfl).2
    (by decide) (by decide) (by decide) (by decide) (by decide)
  obtain ⟨_, _, h1, h2, _, h3⟩ := h
  refine ⟨h1.trans (by decide), h2.trans (by decide), h3.trans (by decide)⟩

/-! ## One step of the decompressor -/

/-- The result of the `switch` keeps the `finished` flag and the native state of the
object it is given. -/
theorem inflateSwitch_finished (K : InflateCodes) (rv : Int) (state : inflate_state)
    (thisj : IsalDecompressor) :
    (inflateSwitch K rv state thisj).obj.finished = thisj.finished ∧
      (inflateSwitch K rv state thisj).obj.stream = thisj.stream := by
  unfold inflateSwitch inflateProgress
  split_ifs <;> simp

/-- C2: in `inflateBytesDirect` the status `ISAL_END_INPUT` is treated as
`ISAL_DECOMP_OK`: two engine steps that leave the same cursors `avail_in` and
`avail_out`, one returning `ISAL_END_INPUT` and one returning `ISAL_DECOMP_OK`, give
the same new offset, new length and returned byte count, and no exception. As in
`compressBytesDirect` these are the 32-bit values of
`offset + (length - avail_in_after)`, `avail_in_after` and
`capacity - avail_out_after`, and exactly those integers for the windows of Java
buffers and cursors that an `int` field can hold. -/
theorem C2_end_input_treated_as_decomp_ok (K : InflateCodes)
    (stepEnd stepOk : inflate_state → Int × inflate_state)
    (thisj : IsalDecompressor) (state : inflate_state)
    (hstream : thisj.stream = some state) (hin : thisj.compressedDirectBuf ≠ 0)
    (hEnd : (stepEnd (recalibrateInflate thisj state)).1 = K.ISAL_END_INPUT)
    (hOk : (stepOk (recalibrateInflate thisj state)).1 = K.ISAL_DECOMP_OK)
    (hIn : (stepEnd (recalibrateInflate thisj state)).2.avail_in
      = (stepOk (recalibrateInflate thisj state)).2.avail_in)
    (hOut : (stepEnd (recalibrateInflate thisj state)).2.avail_out
      = (stepOk (recalibrateInflate thisj state)).2.avail_out) :
    ((inflateBytesDirect K stepEnd thisj).obj.compressedDirectBufOff
        = (inflateBytesDirect K stepOk thisj).obj.compressedDirectBufOff ∧
      (inflateBytesDirect K stepEnd thisj).obj.compressedDirectBufLen
        = (inflateBytesDirect K stepOk thisj).obj.compressedDirectBufLen ∧
      (inflateBytesDirect K stepEnd thisj).ret = (inflateBytesDirect K stepOk thisj).ret ∧
      (inflateBytesDirect K stepEnd thisj).exc = none ∧
      (inflateBytesDirect K stepOk thisj).exc = none) ∧
    ((inflateBytesDirect K stepEnd thisj).obj.compressedDirectBufOff
        = toJint (thisj.compressedDirectBufOff + (thisj.compressedDirectBufLen
            - (stepEnd (recalibrateInflate thisj state)).2.avail_in)) ∧
      (inflateBytesDirect K stepEnd thisj).obj.compressedDirectBufLen
        = toJint (stepEnd (recalibrateInflate thisj state)).2.avail_in ∧
      (inflateBytesDirect K stepEnd thisj).ret
        = toJint (thisj.directBufferSize
            - (stepEnd (recalibrateInflate thisj state)).2.avail_out)) ∧
    (InflateWindows thisj →
      InJint (stepEnd (recalibrateInflate thisj state)).2.avail_in →
      0 ≤ (stepEnd (recalibrateInflate thisj state)).2.avail_in →
      InJint (stepEnd (recalibrateInflate thisj state)).2.avail_out →
      0 ≤ (stepEnd (recalibrateInflate thisj state)).2.avail_out →
      (inflateBytesDirect K stepEnd thisj).obj.compressedDirectBufOff
        = thisj.compressedDirectBufOff + (thisj.compressedDirectBufLen
            - (stepEnd (recalibrateInflate thisj state)).2.avail_in) ∧
      (inflateBytesDirect K stepEnd thisj).obj.compressedDirectBufLen
        = (stepEnd (recalibrateInflate thisj state)).2.avail_in ∧
      (inflateBytesDirect K stepEnd thisj).ret
        = thisj.directBufferSize
            - (stepEnd (recalibrateInflate thisj state)).2.avail_out) := by
  have hE :
      (inflateBytesDirect K stepEnd thisj).obj.compressedDirectBufOff
        = toJint (thisj.compressedDirectBufOff + (thisj.compressedDirectBufLen
            - (stepEnd (recalibrateInflate thisj state)).2.avail_in)) ∧
      (inflateBytesDirect K stepEnd thisj).obj.compressedDirectBufLen
        = toJint (stepEnd (recalibrateInflate thisj state)).2.avail_in ∧
      (inflateBytesDirect K stepEnd thisj).ret
        = toJint (thisj.directBufferSize
            - (stepEnd (recalibrateInflate thisj state)).2.avail_out) ∧
      (inflateBytesDirect K stepEnd thisj).exc = none := by
    simp [inflateBytesDirect, hstream, hin, inflateSwitch, inflateProgress, hEnd,
      offset_expr, produced_expr]
  have hO :
      (inflateBytesDirect K stepOk thisj).obj.compressedDirectBufOff
        = toJint (thisj.compressedDirectBufOff + (thisj.compressedDirectBufLen
            - (stepOk (recalibrateInflate thisj state)).2.avail_in)) ∧
      (inflateBytesDirect K stepOk thisj).obj.compressedDirectBufLen
        = toJint (stepOk (recalibrateInflate thisj state)).2.avail_in ∧
      (inflateBytesDirect K stepOk thisj).ret
        = toJint (thisj.directBufferSize
            - (stepOk (recalibrateInflate thisj state)).2.avail_out) ∧
      (inflateBytesDirect K stepOk thisj).exc = none := by
    simp [inflateBytesDirect, hstream, hin, inflateSwitch, inflateProgress, hOk,
      offset_expr, produced_expr]
  obtain ⟨e1, e2, e3, e4⟩ := hE
  obtain ⟨o1, o2, o3, o4⟩ := hO
  refine ⟨⟨?_, ?_, ?_, e4, o4⟩, ⟨e1, e2, e3⟩, ?_⟩
  · rw [e1, o1, hIn]
  · rw [e2, o2, hIn]
  · rw [e3, o3, hOut]
  · intro hw ha ha0 ho ho0
    obtain ⟨⟨w1, w2, w3⟩, w4, w5⟩ := hw
    unfold InJint at ha ho
    rw [toJint_of_inJint _ (by unfold InJint; omega)] at e1
    rw [toJint_of_inJint _ (by unfold InJint; omega)] at e2
    rw [toJint_of_inJint _ (by unfold InJint; omega)] at e3
    exact ⟨e1, e2, e3⟩

/-- Witness of C2: the input window `(10, 6)` and capacity `16`, with an engine step
that consumes 4 bytes and produces 5: with either status the call moves the window
to `(14, 2)` and returns `5`. -/
theorem C2_end_input_treated_as_decomp_ok_witness :
    (inflateBytesDirect isalInflateCodes (boundedInflate 4 5 1 0)
        (decompressorAt 10 6 16 false)).obj.compressedDirectBufOff = 14 ∧
      (inflateBytesDirect isalInflateCodes (boundedInflate 4 5 0 0)
        (decompressorAt 10 6 16 false)).obj.compressedDirectBufOff = 14 ∧
      (inflateBytesDirect isalInflateCodes (boundedInflate 4 5 1 0)
        (decompressorAt 10 6 16 false)).ret = 5 ∧
      (inflateBytesDirect isalInflateCodes (boundedInflate 4 5 0 0)
        (decompressorAt 10 6 16 false)).ret = 5 := by
  have h := C2_end_input_treated_as_decomp_ok isalInflateCodes (boundedInflate 4 5 1 0)
    (boundedInflate 4 5 0 0) (decompressorAt 10 6 16 false) zeroState rfl (by decide)
    rfl rfl rfl rfl
  obtain ⟨⟨h1, _, h3, _, _⟩, _, hx⟩ := h
  obtain ⟨x1, _, x3⟩ := hx (by decide) (by decide) (by decide) (by decide) (by decide)
  refine ⟨x1.trans (by decide), (h1.symm.trans x1).trans (by decide), x3.trans (by decide),
    (h3.symm.trans x3).trans (by decide)⟩

/-- C3: in `inflateBytesDirect` the terminal check comes before the `switch` on the
status: whatever status the engine step returns, if it leaves the block state
`ISAL_BLOCK_FINISH` then `finished` is true after the call; and no call changes
`finished` from true to false. -/
theorem C3_finished_set_before_status (K : InflateCodes)
    (dlsym_isal_inflate : inflate_state → Int × inflate_state)
    (thisj : IsalDecompressor) :
    (∀ state : inflate_state, thisj.stream = some state →
      thisj.compressedDirectBuf ≠ 0 →
      (dlsym_isal_inflate (recalibrateInflate thisj state)).2.block_state
        = K.ISAL_BLOCK_FINISH →
      (inflateBytesDirect K dlsym_isal_inflate thisj).obj.finished = true) ∧
    (thisj.finished = true →
      (inflateBytesDirect K dlsym_isal_inflate thisj).obj.finished = true) := by
  constructor
  · intro state hstream hin hfin
    simp [inflateBytesDirect, hstream, hin, inflateSwitch_finished, hfin]
  · intro hf
    cases hs : thisj.stream with
    | none => simp [inflateBytesDirect, hs, hf]
    | some state =>
      by_cases hin : thisj.compressedDirectBuf = 0
      · simp [inflateBytesDirect, hs, hin, hf]
      · simp [inflateBytesDirect, hs, hin, inflateSwitch_finished, hf]

/-- Witness of C3: an engine step that returns `ISAL_INVALID_BLOCK` and leaves the
block state `ISAL_BLOCK_FINISH` sets `finished`; a step on a finished object leaves
it finished. -/
theorem C3_finished_set_before_status_witness :
    (inflateBytesDirect isalInflateCodes (boundedInflate 4 5 (-1) 5)
        (decompressorAt 0 6 16 false)).obj.finished = true ∧
      (inflateBytesDirect isalInflateCodes (boundedInflate 4 5 0 0)
        (decompressorAt 0 6 16 true)).obj.finished = true :=
  ⟨(C3_finished_set_before_status isalInflateCodes (boundedInflate 4 5 (-1) 5)
      (decompressorAt 0 6 16 false)).1 zeroState rfl (by decide) rfl,
    (C3_finished_set_before_status isalInflateCodes (boundedInflate 4 5 0 0)
      (decompressorAt 0 6 16 true)).2 rfl⟩

/-! ## Status codes and errors -/

/-- A status that is none of the three case labels leaves `compressSwitch` without
an exception, with result `0` and the object untouched. -/
theorem compressSwitch_unlisted (K : DeflateCodes) (rv : Int) (stream : isal_zstream)
    (thisj : IsalCompressor) (h1 : rv ≠ K.COMP_OK) (h2 : rv ≠ K.INVALID_FLUSH)
    (h3 : rv ≠ K.ISAL_INVALID_LEVEL) :
    compressSwitch K rv stream thisj = { obj := thisj, ret := 0, exc := none } := by
  simp [compressSwitch, h1, h2, h3]

/-- A status that is none of the six case labels leaves `inflateSwitch` without an
exception, with result `0` and the object untouched. -/
theorem inflateSwitch_unlisted (K : InflateCodes) (rv : Int) (state : inflate_state)
    (thisj : IsalDecompressor) (h : rv ∉ K.labels) :
    inflateSwitch K rv state thisj = { obj := thisj, ret := 0, exc := none } := by
  simp only [InflateCodes.labels, List.mem_cons, List.mem_singleton, not_or,
    List.not_mem_nil, or_false] at h
  obtain ⟨h1, h2, h3, h4, h5, h6⟩ := h
  simp [inflateSwitch, h1, h2, h3, h4, h5, h6]

/-- C4 (the code at the failing input): with the constants of ISA-L, a deflate step
that returns `-5` (`ISAL_INVALID_LEVEL_BUF`) and an inflate step that returns `-4`
(`ISAL_INVALID_WRAPPER`) make the call return `0` with no exception pending and
the input window as it was: neither `switch` has a `default` label, so an error
status that is not a case label is ignored. -/
theorem C4_unlisted_status_is_ignored :
    (compressBytesDirect isalDeflateCodes (boundedDeflate 0 0 (-5) 0)
        (compressorAt 0 6 16 false)).exc = none ∧
      (compressBytesDirect isalDeflateCodes (boundedDeflate 0 0 (-5) 0)
        (compressorAt 0 6 16 false)).ret = 0 ∧
      (compressBytesDirect isalDeflateCodes (boundedDeflate 0 0 (-5) 0)
        (compressorAt 0 6 16 false)).obj.uncompressedDirectBufOff = 0 ∧
      (compressBytesDirect isalDeflateCodes (boundedDeflate 0 0 (-5) 0)
        (compressorAt 0 6 16 false)).obj.uncompressedDirectBufLen = 6 ∧
      deflateStatus (boundedDeflate 0 0 (-5) 0) (compressorAt 0 6 16 false) = some (-5) ∧
      (inflateBytesDirect isalInflateCodes (boundedInflate 0 0 (-4) 0)
        (decompressorAt 0 6 16 false)).exc = none ∧
      (inflateBytesDirect isalInflateCodes (boundedInflate 0 0 (-4) 0)
        (decompressorAt 0 6 16 false)).ret = 0 ∧
      (inflateBytesDirect isalInflateCodes (boundedInflate 0 0 (-4) 0)
        (decompressorAt 0 6 16 false)).obj.compressedDirectBufOff = 0 ∧
      (inflateBytesDirect isalInflateCodes (boundedInflate 0 0 (-4) 0)
        (decompressorAt 0 6 16 false)).obj.compressedDirectBufLen = 6 ∧
      inflateStatus (boundedInflate 0 0 (-4) 0) (decompressorAt 0 6 16 false)
        = some (-4) := by
  decide

/-- C5 (counterexample): with the constants of ISA-L, the call whose engine step
returns `INVALID_FLUSH` and the call whose engine step returns `ISAL_INVALID_LEVEL`
leave the same exception pending, and the same result altogether. -/
theorem C5_flush_and_level_errors_coincide :
    (compressBytesDirect isalDeflateCodes (boundedDeflate 0 0 (-7) 0)
        (compressorAt 0 6 16 false)).exc
      = (compressBytesDirect isalDeflateCodes (boundedDeflate 0 0 (-4) 0)
        (compressorAt 0 6 16 false)).exc ∧
      compressBytesDirect isalDeflateCodes (boundedDeflate 0 0 (-7) 0)
        (compressorAt 0 6 16 false)
      = compressBytesDirect isalDeflateCodes (boundedDeflate 0 0 (-4) 0)
        (compressorAt 0 6 16 false) := by
  decide

/-- C5 (amended): `compressBytesDirect` surfaces an invalid flush mode and an invalid
compression level as the same failure: whenever the engine step returns
`INVALID_FLUSH` or `ISAL_INVALID_LEVEL`, the call leaves an
`IllegalArgumentException` without message pending, returns `0` and leaves the
input window as it was. -/
theorem C5_flush_and_level_raise_illegal_argument (K : DeflateCodes)
    (dlsym_isal_deflate : isal_zstream → Int × isal_zstream) (thisj : IsalCompressor)
    (hK : K.LabelsDistinct)
    (hrv : deflateStatus dlsym_isal_deflate thisj = some K.INVALID_FLUSH ∨
      deflateStatus dlsym_isal_deflate thisj = some K.ISAL_INVALID_LEVEL) :
    (compressBytesDirect K dlsym_isal_deflate thisj).exc
        = some { cls := "java/lang/IllegalArgumentException", msg := none } ∧
      (compressBytesDirect K dlsym_isal_deflate thisj).ret = 0 ∧
      (compressBytesDirect K dlsym_isal_deflate thisj).obj.uncompressedDirectBufOff
        = thisj.uncompressedDirectBufOff ∧
      (compressBytesDirect K dlsym_isal_deflate thisj).obj.uncompressedDirectBufLen
        = thisj.uncompressedDirectBufLen := by
  obtain ⟨d1, d2, d3⟩ := hK
  cases hs : thisj.stream with
  | none => simp [deflateStatus, hs] at hrv
  | some stream =>
    by_cases hin : thisj.uncompressedDirectBuf = 0
    · simp [deflateStatus, hs, hin] at hrv
    · by_cases hout : thisj.compressedDirectBuf = 0
      · simp [deflateStatus, hs, hin, hout] at hrv
      · simp only [deflateStatus, hs, hin, hout, if_false, Option.some.injEq] at hrv
        rcases hrv with h | h
        · simp [compressBytesDirect, hs, hin, hout, compressSwitch, h, THROW, Ne.symm d1]
        · simp [compressBytesDirect, hs, hin, hout, compressSwitch, h, THROW, Ne.symm d2,
            Ne.symm d3]

/-- Witness of C5 (amended): the constants of ISA-L and an engine step that returns
`INVALID_FLUSH`. -/
theorem C5_flush_and_level_raise_illegal_argument_witness :
    (compressBytesDirect isalDeflateCodes (boundedDeflate 0 0 (-7) 0)
        (compressorAt 0 6 16 false)).exc
      = some { cls := "java/lang/IllegalArgumentException", msg := none } :=
  (C5_flush_and_level_raise_illegal_argument isalDeflateCodes (boundedDeflate 0 0 (-7) 0)
    (compressorAt 0 6 16 false) (by decide) (Or.inl rfl)).1

/-- An exception left by `inflateSwitch` comes from one of the four stream-data
statuses. -/
theorem inflateSwitch_exception_status (K : InflateCodes) (rv : Int)
    (state : inflate_state) (thisj : IsalDecompressor) (e : JavaException)
    (he : (inflateSwitch K rv state thisj).exc = some e) :
    rv = K.ISAL_OUT_OVERFLOW ∨ rv = K.ISAL_INVALID_BLOCK ∨ rv = K.ISAL_INVALID_SYMBOL ∨
      rv = K.ISAL_INVALID_LOOKBACK := by
  by_cases h3 : rv = K.ISAL_OUT_OVERFLOW
  · exact Or.inl h3
  by_cases h4 : rv = K.ISAL_INVALID_BLOCK
  · exact Or.inr (Or.inl h4)
  by_cases h5 : rv = K.ISAL_INVALID_SYMBOL
  · exact Or.inr (Or.inr (Or.inl h5))
  by_cases h6 : rv = K.ISAL_INVALID_LOOKBACK
  · exact Or.inr (Or.inr (Or.inr h6))
  exfalso
  unfold inflateSwitch inflateProgress at he
  simp only [h3, h4, h5, h6, if_false] at he
  split_ifs at he

/-- C6: `inflateBytesDirect` surfaces each of the four stream-data statuses as its
own `IOException`: an engine status of `ISAL_OUT_OVERFLOW`, `ISAL_INVALID_BLOCK`,
`ISAL_INVALID_SYMBOL` or `ISAL_INVALID_LOOKBACK` leaves an `IOException` pending
whose message names the status, the four exceptions are pairwise different, and a
pending `IOException` comes from one of these four statuses only. -/
theorem C6_stream_data_errors_are_io_errors (K : InflateCodes)
    (dlsym_isal_inflate : inflate_state → Int × inflate_state) (thisj : IsalDecompressor)
    (hK : K.LabelsDistinct) :
    (inflateStatus dlsym_isal_inflate thisj = some K.ISAL_OUT_OVERFLOW →
      (inflateBytesDirect K dlsym_isal_inflate thisj).exc
        = some { cls := "java/io/IOException", msg := some "ISAL_OUT_OVERFLOW" }) ∧
    (inflateStatus dlsym_isal_inflate thisj = some K.ISAL_INVALID_BLOCK →
      (inflateBytesDirect K dlsym_isal_inflate thisj).exc
        = some { cls := "java/io/IOException", msg := some "ISAL_INVALID_BLOCK" }) ∧
    (inflateStatus dlsym_isal_inflate thisj = some K.ISAL_INVALID_SYMBOL →
      (inflateBytesDirect K dlsym_isal_inflate thisj).exc
        = some { cls := "java/io/IOException", msg := some "ISAL_INVALID_SYMBOL" }) ∧
    (inflateStatus dlsym_isal_inflate thisj = some K.ISAL_INVALID_LOOKBACK →
      (inflateBytesDirect K dlsym_isal_inflate thisj).exc
        = some { cls := "java/io/IOException", msg := some "ISAL_INVALID_LOOKBACK" }) ∧
    List.Nodup
      [({ cls := "java/io/IOException", msg := some "ISAL_OUT_OVERFLOW" } : JavaException),
        { cls := "java/io/IOException", msg := some "ISAL_INVALID_BLOCK" },
        { cls := "java/io/IOException", msg := some "ISAL_INVALID_SYMBOL" },
        { cls := "java/io/IOException", msg := some "ISAL_INVALID_LOOKBACK" }] ∧
    (∀ e : JavaException, (inflateBytesDirect K dlsym_isal_inflate thisj).exc = some e →
      e.cls = "java/io/IOException" →
      inflateStatus dlsym_isal_inflate thisj = some K.ISAL_OUT_OVERFLOW ∨
      inflateStatus dlsym_isal_inflate thisj = some K.ISAL_INVALID_BLOCK ∨
      inflateStatus dlsym_isal_inflate thisj = some K.ISAL_INVALID_SYMBOL ∨
      inflateStatus dlsym_isal_inflate thisj = some K.ISAL_INVALID_LOOKBACK) := by
  simp only [InflateCodes.LabelsDistinct, InflateCodes.labels, List.nodup_cons,
    List.mem_cons, List.mem_singleton, not_or, List.not_mem_nil, not_false_eq_true,
    List.nodup_nil, and_true, or_false] at hK
  obtain ⟨⟨a1, a2, a3, a4, a5⟩, ⟨b2, b3, b4, b5⟩, ⟨c3, c4, c5⟩, ⟨d4, d5⟩, e5⟩ := hK
  refine ⟨?_, ?_, ?_, ?_, by decide, ?_⟩
  all_goals
    cases hs : thisj.stream with
    | none => simp [inflateStatus, inflateBytesDirect, hs, THROW]
    | some state =>
      by_cases hin : thisj.compressedDirectBuf = 0
      · simp [inflateStatus, inflateBytesDirect, hs, hin]
      · simp only [inflateStatus, inflateBytesDirect, hs, hin, if_false,
          Option.some.injEq]
        first
          | (intro h
             simp [inflateSwitch, h, THROW, Ne.symm a2, Ne.symm a3, Ne.symm a4, Ne.symm a5,
               Ne.symm b2, Ne.symm b3, Ne.symm b4, Ne.symm b5, Ne.symm c3, Ne.symm c4,
               Ne.symm c5, Ne.symm d4, Ne.symm d5, Ne.symm e5])
          | (intro e he _
             exact inflateSwitch_exception_status K _ _ _ e he)

/-- Witness of C6: the constants of ISA-L and an engine step that returns
`ISAL_INVALID_SYMBOL`. -/
theorem C6_stream_data_errors_are_io_errors_witness :
    (inflateBytesDirect isalInflateCodes (boundedInflate 4 5 (-2) 0)
        (decompressorAt 0 6 16 false)).exc
      = some { cls := "java/io/IOException", msg := some "ISAL_INVALID_SYMBOL" } :=
  (C6_stream_data_errors_are_io_errors isalInflateCodes (boundedInflate 4 5 (-2) 0)
    (decompressorAt 0 6 16 false) (by decide)).2.2.1 rfl

/-! ## The `finished` flag -/

/-- C7 (counterexample): a finished compressor and a finished decompressor are
stepped without any error: the engine is invoked (status `0`), the call returns
the 5 bytes the engine produced with no exception pending, and moves the input
window by the 4 bytes the engine consumed. -/
theorem C7_finished_session_is_stepped :
    (compressorAt 0 6 16 true).finished = true ∧
      deflateStatus (boundedDeflate 4 5 0 0) (compressorAt 0 6 16 true) = some 0 ∧
      (compressBytesDirect isalDeflateCodes (boundedDeflate 4 5 0 0)
        (compressorAt 0 6 16 true)).exc = none ∧
      (compressBytesDirect isalDeflateCodes (boundedDeflate 4 5 0 0)
        (compressorAt 0 6 16 true)).ret = 5 ∧
      (compressBytesDirect isalDeflateCodes (boundedDeflate 4 5 0 0)
        (compressorAt 0 6 16 true)).obj.uncompressedDirectBufOff = 4 ∧
      (decompressorAt 0 6 16 true).finished = true ∧
      inflateStatus (boundedInflate 4 5 0 0) (decompressorAt 0 6 16 true) = some 0 ∧
      (inflateBytesDirect isalInflateCodes (boundedInflate 4 5 0 0)
        (decompressorAt 0 6 16 true)).exc = none ∧
      (inflateBytesDirect isalInflateCodes (boundedInflate 4 5 0 0)
        (decompressorAt 0 6 16 true)).ret = 5 ∧
      (inflateBytesDirect isalInflateCodes (boundedInflate 4 5 0 0)
        (decompressorAt 0 6 16 true)).obj.compressedDirectBufOff = 4 := by
  decide

/-- C7 (amended): the step functions do not read `finished`. A step on a session
whose `finished` flag is true invokes the engine on the same cursors, returns the
same value, leaves the same exception pending and the same fields and native
stream as the same step on the session with the flag false, except that
`finished` stays true. -/
theorem C7_step_does_not_read_finished (K : DeflateCodes) (L : InflateCodes)
    (dlsym_isal_deflate : isal_zstream → Int × isal_zstream)
    (dlsym_isal_inflate : inflate_state → Int × inflate_state)
    (c : IsalCompressor) (d : IsalDecompressor) :
    (deflateStatus dlsym_isal_deflate { c with finished := true }
        = deflateStatus dlsym_isal_deflate { c with finished := false } ∧
      (compressBytesDirect K dlsym_isal_deflate { c with finished := true }).ret
        = (compressBytesDirect K dlsym_isal_deflate { c with finished := false }).ret ∧
      (compressBytesDirect K dlsym_isal_deflate { c with finished := true }).exc
        = (compressBytesDirect K dlsym_isal_deflate { c with finished := false }).exc ∧
      (compressBytesDirect K dlsym_isal_deflate { c with finished := true }).obj
        = { (compressBytesDirect K dlsym_isal_deflate { c with finished := false }).obj with
            finished := true }) ∧
    (inflateStatus dlsym_isal_inflate { d with finished := true }
        = inflateStatus dlsym_isal_inflate { d with finished := false } ∧
      (inflateBytesDirect L dlsym_isal_inflate { d with finished := true }).ret
        = (inflateBytesDirect L dlsym_isal_inflate { d with finished := false }).ret ∧
      (inflateBytesDirect L dlsym_isal_inflate { d with finished := true }).exc
        = (inflateBytesDirect L dlsym_isal_inflate { d with finished := false }).exc ∧
      (inflateBytesDirect L dlsym_isal_inflate { d with finished := true }).obj
        = { (inflateBytesDirect L dlsym_isal_inflate { d with finished := false }).obj with
            finished := true }) := by
  constructor
  · cases hs : c.stream with
    | none => simp [deflateStatus, compressBytesDirect, hs]
    | some stream =>
      by_cases hin : c.uncompressedDirectBuf = 0
      · simp [deflateStatus, compressBytesDirect, hs, hin]
      · by_cases hout : c.compressedDirectBuf = 0
        · simp [deflateStatus, compressBytesDirect, hs, hin, hout]
        · simp only [deflateStatus, compressBytesDirect, hs, hin, hout, if_false,
            recalibrateDeflate, compressSwitch]
          split_ifs <;> simp
  · cases hs : d.stream with
    | none => simp [inflateStatus, inflateBytesDirect, hs]
    | some state =>
      by_cases hin : d.compressedDirectBuf = 0
      · simp [inflateStatus, inflateBytesDirect, hs, hin]
      · simp only [inflateStatus, inflateBytesDirect, hs, hin, if_false,
          recalibrateInflate, inflateSwitch, inflateProgress]
        split_ifs <;> simp

/-! ## Sequences of calls: conservation -/

theorem boundedDeflate_accounts (n m rv st : Int) :
    DeflateAccounts (boundedDeflate n m rv st) := by
  intro s
  simp only [boundedDeflate]
  constructor <;> omega

theorem boundedDeflate_forward (n m rv st : Int) (hn : 0 ≤ n) (hm : 0 ≤ m) :
    DeflateForward (boundedDeflate n m rv st) := by
  constructor <;> intro s h <;> simp only [boundedDeflate] at h ⊢ <;> constructor <;> omega

theorem boundedInflate_accounts (n m rv st : Int) :
    InflateAccounts (boundedInflate n m rv st) := by
  intro s
  simp only [boundedInflate]
  omega

theorem boundedInflate_forward (n m rv st : Int) (hn : 0 ≤ n) (hm : 0 ≤ m) :
    InflateForward (boundedInflate n m rv st) := by
  constructor <;> intro s h <;> simp only [boundedInflate] at h ⊢ <;> constructor <;> omega

/-- One compressor call whose engine status, if any, is `COMP_OK`: the counters of
the stream grow by the amount the offset advanced and by the returned count. -/
theorem compress_call_conserves (K : DeflateCodes)
    (engine : isal_zstream → Int × isal_zstream) (thisj : IsalCompressor)
    (s : isal_zstream) (hs : thisj.stream = some s) (hacc : DeflateAccounts engine)
    (hfw : DeflateForward engine) (hw : CompressWindows thisj)
    (hst : deflateStatus engine thisj = none ∨ deflateStatus engine thisj = some K.COMP_OK) :
    ∃ s1 : isal_zstream, (compressBytesDirect K engine thisj).obj.stream = some s1 ∧
      s1.total_in = s.total_in + ((compressBytesDirect K engine thisj).obj.uncompressedDirectBufOff
        - thisj.uncompressedDirectBufOff) ∧
      s1.total_out = s.total_out + (compressBytesDirect K engine thisj).ret := by
  obtain ⟨⟨w1, w2, w3⟩, w4, w5⟩ := hw
  by_cases hin : thisj.uncompressedDirectBuf = 0
  · exact ⟨s, by simp [compressBytesDirect, hs, hin]⟩
  by_cases hout : thisj.compressedDirectBuf = 0
  · exact ⟨s, by simp [compressBytesDirect, hs, hin, hout]⟩
  simp only [deflateStatus, hs, hin, hout, if_false, Option.some.injEq, false_or,
    reduceCtorEq] at hst
  have hA := hacc (recalibrateDeflate thisj s)
  have hF1 := hfw.1 (recalibrateDeflate thisj s)
  have hF2 := hfw.2 (recalibrateDeflate thisj s)
  have e1 : (recalibrateDeflate thisj s).avail_in = thisj.uncompressedDirectBufLen := by
    simp only [recalibrateDeflate]
    exact toU32_of_nonneg _ w2 (by omega)
  have e2 : (recalibrateDeflate thisj s).avail_out = thisj.BufferSize := by
    simp only [recalibrateDeflate]
    exact toU32_of_nonneg _ w4 (by omega)
  have e3 : (recalibrateDeflate thisj s).total_in = s.total_in := by
    simp [recalibrateDeflate]
  have e4 : (recalibrateDeflate thisj s).total_out = s.total_out := by
    simp [recalibrateDeflate]
  rw [e1, e2, e3, e4] at hA
  rw [e1] at hF1
  rw [e2] at hF2
  obtain ⟨hA1, hA2⟩ := hA
  obtain ⟨f1, f2⟩ := hF1 w2
  obtain ⟨f3, f4⟩ := hF2 w4
  refine ⟨(engine (recalibrateDeflate thisj s)).2, ?_, ?_, ?_⟩
  · simp [compressBytesDirect, hs, hin, hout]
  · simp only [compressBytesDirect, hs, hin, hout, if_false, compressSwitch, hst, if_true,
      offset_expr]
    rw [toJint_of_inJint _ (by unfold InJint; omega), hA1]
    omega
  · simp only [compressBytesDirect, hs, hin, hout, if_false, compressSwitch, hst, if_true,
      produced_expr]
    rw [toJint_of_inJint _ (by unfold InJint; omega), hA2]

/-- One decompressor call whose engine status, if any, is `ISAL_DECOMP_OK` or
`ISAL_END_INPUT`: `total_out` grows by the returned count. -/
theorem inflate_call_conserves (K : InflateCodes)
    (engine : inflate_state → Int × inflate_state) (thisj : IsalDecompressor)
    (s : inflate_state) (hs : thisj.stream = some s) (hacc : InflateAccounts engine)
    (hfw : InflateForward engine) (hw : InflateWindows thisj)
    (hst : inflateStatus engine thisj = none ∨
      inflateStatus engine thisj = some K.ISAL_DECOMP_OK ∨
      inflateStatus engine thisj = some K.ISAL_END_INPUT) :
    ∃ s1 : inflate_state, (inflateBytesDirect K engine thisj).obj.stream = some s1 ∧
      s1.total_out = s.total_out + (inflateBytesDirect K engine thisj).ret := by
  obtain ⟨⟨w1, w2, w3⟩, w4, w5⟩ := hw
  by_cases hin : thisj.compressedDirectBuf = 0
  · exact ⟨s, by simp [inflateBytesDirect, hs, hin]⟩
  simp only [inflateStatus, hs, hin, if_false, Option.some.injEq, false_or,
    reduceCtorEq] at hst
  have hA := hacc (recalibrateInflate thisj s)
  have hF := hfw.2 (recalibrateInflate thisj s)
  have e2 : (recalibrateInflate thisj s).avail_out = thisj.directBufferSize := by
    simp only [recalibrateInflate]
    exact toU32_of_nonneg _ w4 (by omega)
  have e4 : (recalibrateInflate thisj s).total_out = s.total_out := by
    simp [recalibrateInflate]
  rw [e2, e4] at hA
  rw [e2] at hF
  obtain ⟨f3, f4⟩ := hF w4
  have hsw : inflateSwitch K (engine (recalibrateInflate thisj s)).1
      (engine (recalibrateInflate thisj s)).2
      { thisj with
        stream := some (engine (recalibrateInflate thisj s)).2
        finished :=
          if (engine (recalibrateInflate thisj s)).2.block_state = K.ISAL_BLOCK_FINISH
          then true else thisj.finished }
      = inflateProgress (engine (recalibrateInflate thisj s)).2
        { thisj with
          stream := some (engine (recalibrateInflate thisj s)).2
          finished :=
            if (engine (recalibrateInflate thisj s)).2.block_state = K.ISAL_BLOCK_FINISH
            then true else thisj.finished } := by
    unfold inflateSwitch
    rcases hst with h | h
    · rw [h]; simp
    · rw [h]; simp
  refine ⟨(engine (recalibrateInflate thisj s)).2, ?_, ?_⟩
  · simp only [inflateBytesDirect, hs, hin, if_false, hsw]
    simp [inflateProgress]
  · simp only [inflateBytesDirect, hs, hin, if_false, hsw]
    simp only [inflateProgress, produced_expr]
    rw [toJint_of_inJint _ (by unfold InJint; omega), hA]

/-- Conservation along a sequence of compressor calls with progress statuses. -/
theorem compressCalls_conserve (K : DeflateCodes) (cs : List CompressCall) :
    ∀ s0 : isal_zstream,
    (∀ c ∈ cs, DeflateAccounts c.engine ∧ DeflateForward c.engine ∧
      CompressWindows c.fields) →
    (∀ r ∈ (compressCalls K cs (some s0)).2,
      r.status = none ∨ r.status = some K.COMP_OK) →
    ∃ sN : isal_zstream, (compressCalls K cs (some s0)).1 = some sN ∧
      getBytesRead sN = getBytesRead s0
        + ((compressCalls K cs (some s0)).2.map CallRecord.advanced).sum ∧
      getBytesWritten sN = getBytesWritten s0
        + ((compressCalls K cs (some s0)).2.map CallRecord.returned).sum := by
  induction cs with
  | nil =>
    intro s0 _ _
    exact ⟨s0, by simp [compressCalls]⟩
  | cons c cs ih =>
    intro s0 hc hr
    obtain ⟨hacc, hfw, hw⟩ := hc c (List.mem_cons_self _ _)
    have hw1 : CompressWindows { c.fields with stream := some s0 } := hw
    have hst := hr _ (List.mem_cons_self _ _)
    obtain ⟨s1, h1, h2, h3⟩ := compress_call_conserves K c.engine
      { c.fields with stream := some s0 } s0 rfl hacc hfw hw1 hst
    have hr1 : ∀ r ∈ (compressCalls K cs (some s1)).2,
        r.status = none ∨ r.status = some K.COMP_OK := by
      intro r hmem
      apply hr
      simp only [compressCalls, h1]
      exact List.mem_cons_of_mem _ hmem
    obtain ⟨sN, g1, g2, g3⟩ := ih s1 (fun c1 hmem => hc c1 (List.mem_cons_of_mem _ hmem)) hr1
    refine ⟨sN, ?_, ?_, ?_⟩
    · simp only [compressCalls, h1]
      exact g1
    · simp only [compressCalls, h1, List.map_cons, List.sum_cons]
      simp only [getBytesRead] at g2 ⊢
      rw [g2, h2]
      ring
    · simp only [compressCalls, h1, List.map_cons, List.sum_cons]
      simp only [getBytesWritten] at g3 ⊢
      rw [g3, h3]
      ring

/-- Conservation along a sequence of decompressor calls with progress statuses. -/
theorem inflateCalls_conserve (K : InflateCodes) (cs : List InflateCall) :
    ∀ s0 : inflate_state,
    (∀ c ∈ cs, InflateAccounts c.engine ∧ InflateForward c.engine ∧
      InflateWindows c.fields) →
    (∀ r ∈ (inflateCalls K cs (some s0)).2,
      r.status = none ∨ r.status = some K.ISAL_DECOMP_OK ∨
        r.status = some K.ISAL_END_INPUT) →
    ∃ sN : inflate_state, (inflateCalls K cs (some s0)).1 = some sN ∧
      inflateGetBytesWritten sN = inflateGetBytesWritten s0
        + ((inflateCalls K cs (some s0)).2.map CallRecord.returned).sum := by
  induction cs with
  | nil =>
    intro s0 _ _
    exact ⟨s0, by simp [inflateCalls]⟩
  | cons c cs ih =>
    intro s0 hc hr
    obtain ⟨hacc, hfw, hw⟩ := hc c (List.mem_cons_self _ _)
    have hw1 : InflateWindows { c.fields with stream := some s0 } := hw
    have hst := hr _ (List.mem_cons_self _ _)
    obtain ⟨s1, h1, h3⟩ := inflate_call_conserves K c.engine
      { c.fields with stream := some s0 } s0 rfl hacc hfw hw1 hst
    have hr1 : ∀ r ∈ (inflateCalls K cs (some s1)).2,
        r.status = none ∨ r.status = some K.ISAL_DECOMP_OK ∨
          r.status = some K.ISAL_END_INPUT := by
      intro r hmem
      apply hr
      simp only [inflateCalls, h1]
      exact List.mem_cons_of_mem _ hmem
    obtain ⟨sN, g1, g3⟩ := ih s1 (fun c1 hmem => hc c1 (List.mem_cons_of_mem _ hmem)) hr1
    refine ⟨sN, ?_, ?_⟩
    · simp only [inflateCalls, h1]
      exact g1
    · simp only [inflateCalls, h1, List.map_cons, List.sum_cons]
      simp only [inflateGetBytesWritten] at g3 ⊢
      rw [g3, h3]
      ring

/-- C8 (counterexample): engines that keep their counters at every step and return an
error status. From a stream with both counters at zero, one compressor call whose
engine step consumes 4 bytes, produces 5 and returns `INVALID_FLUSH` leaves
`getBytesRead = 4` and `getBytesWritten = 5`, while the call advanced the offset by
`0` and returned `0`; one decompressor call whose engine step produces 5 bytes and
returns `ISAL_INVALID_BLOCK` leaves `getBytesWritten = 5` while the call returned
`0`. -/
theorem C8_conservation_fails_on_error_status :
    DeflateAccounts (boundedDeflate 4 5 (-7) 0) ∧
      (compressCalls isalDeflateCodes
        [{ fields := compressorAt 0 6 16 false, engine := boundedDeflate 4 5 (-7) 0 }]
        (some zeroStream)).1.map getBytesRead = some 4 ∧
      ((compressCalls isalDeflateCodes
        [{ fields := compressorAt 0 6 16 false, engine := boundedDeflate 4 5 (-7) 0 }]
        (some zeroStream)).2.map CallRecord.advanced).sum = 0 ∧
      (compressCalls isalDeflateCodes
        [{ fields := compressorAt 0 6 16 false, engine := boundedDeflate 4 5 (-7) 0 }]
        (some zeroStream)).1.map getBytesWritten = some 5 ∧
      ((compressCalls isalDeflateCodes
        [{ fields := compressorAt 0 6 16 false, engine := boundedDeflate 4 5 (-7) 0 }]
        (some zeroStream)).2.map CallRecord.returned).sum = 0 ∧
      InflateAccounts (boundedInflate 4 5 (-1) 0) ∧
      (inflateCalls isalInflateCodes
        [{ fields := decompressorAt 0 6 16 false, engine := boundedInflate 4 5 (-1) 0 }]
        (some zeroState)).1.map inflateGetBytesWritten = some 5 ∧
      ((inflateCalls isalInflateCodes
        [{ fields := decompressorAt 0 6 16 false, engine := boundedInflate 4 5 (-1) 0 }]
        (some zeroState)).2.map CallRecord.returned).sum = 0 :=
  ⟨boundedDeflate_accounts 4 5 (-7) 0, by decide, by decide, by decide, by decide,
    boundedInflate_accounts 4 5 (-1) 0, by decide, by decide⟩

/-- C8 (amended): conservation over calls with a progress status. For every sequence
of `compressBytesDirect` calls on windows of Java buffers, with engine steps that
keep their counters and move their cursors forward only, in which every engine
status is `COMP_OK`: `getBytesRead` has grown by the sum of the amounts by which the
calls advanced the input offset, and `getBytesWritten` by the sum of the byte counts
the calls returned (from `init` or `reset`, where the counters are zero, they are
equal to these sums). For every such sequence of `inflateBytesDirect` calls in
which every engine status is `ISAL_DECOMP_OK` or `ISAL_END_INPUT`: `getBytesWritten`
has grown by the sum of the byte counts the calls returned. -/
theorem C8_conservation_over_progress_calls (K : DeflateCodes) (L : InflateCodes) :
    (∀ (cs : List CompressCall) (s0 : isal_zstream),
      (∀ c ∈ cs, DeflateAccounts c.engine ∧ DeflateForward c.engine ∧
        CompressWindows c.fields) →
      (∀ r ∈ (compressCalls K cs (some s0)).2,
        r.status = none ∨ r.status = some K.COMP_OK) →
      ∃ sN : isal_zstream, (compressCalls K cs (some s0)).1 = some sN ∧
        getBytesRead sN = getBytesRead s0
          + ((compressCalls K cs (some s0)).2.map CallRecord.advanced).sum ∧
        getBytesWritten sN = getBytesWritten s0
          + ((compressCalls K cs (some s0)).2.map CallRecord.returned).sum) ∧
    (∀ (ds : List InflateCall) (t0 : inflate_state),
      (∀ d ∈ ds, InflateAccounts d.engine ∧ InflateForward d.engine ∧
        InflateWindows d.fields) →
      (∀ r ∈ (inflateCalls L ds (some t0)).2,
        r.status = none ∨ r.status = some L.ISAL_DECOMP_OK ∨
          r.status = some L.ISAL_END_INPUT) →
      ∃ tN : inflate_state, (inflateCalls L ds (some t0)).1 = some tN ∧
        inflateGetBytesWritten tN = inflateGetBytesWritten t0
          + ((inflateCalls L ds (some t0)).2.map CallRecord.returned).sum) :=
  ⟨fun cs s0 => compressCalls_conserve K cs s0, fun ds t0 => inflateCalls_conserve L ds t0⟩

/-- Witness of C8 (amended): two compressor calls, and two decompressor calls, on the
windows `(0, 6)` and `(4, 2)`, whose engine steps consume up to 4 bytes and produce
up to 5 and return a progress status. -/
theorem C8_conservation_over_progress_calls_witness :
    (∃ sN : isal_zstream,
      (compressCalls isalDeflateCodes
        [{ fields := compressorAt 0 6 16 false, engine := boundedDeflate 4 5 0 0 },
          { fields := compressorAt 4 2 16 false, engine := boundedDeflate 4 5 0 11 }]
        (some zeroStream)).1 = some sN ∧
      getBytesRead sN = getBytesRead zeroStream
        + ((compressCalls isalDeflateCodes
            [{ fields := compressorAt 0 6 16 false, engine := boundedDeflate 4 5 0 0 },
              { fields := compressorAt 4 2 16 false, engine := boundedDeflate 4 5 0 11 }]
            (some zeroStream)).2.map CallRecord.advanced).sum ∧
      getBytesWritten sN = getBytesWritten zeroStream
        + ((compressCalls isalDeflateCodes
            [{ fields := compressorAt 0 6 16 false, engine := boundedDeflate 4 5 0 0 },
              { fields := compressorAt 4 2 16 false, engine := boundedDeflate 4 5 0 11 }]
            (some zeroStream)).2.map CallRecord.returned).sum) ∧
    (∃ tN : inflate_state,
      (inflateCalls isalInflateCodes
        [{ fields := decompressorAt 0 6 16 false, engine := boundedInflate 4 5 0 0 },
          { fields := decompressorAt 4 2 16 false, engine := boundedInflate 4 5 1 5 }]
        (some zeroState)).1 = some tN ∧
      inflateGetBytesWritten tN = inflateGetBytesWritten zeroState
        + ((inflateCalls isalInflateCodes
            [{ fields := decompressorAt 0 6 16 false, engine := boundedInflate 4 5 0 0 },
              { fields := decompressorAt 4 2 16 false, engine := boundedInflate 4 5 1 5 }]
            (some zeroState)).2.map CallRecord.returned).sum) :=
  ⟨(C8_conservation_over_progress_calls isalDeflateCodes isalInflateCodes).1
      [{ fields := compressorAt 0 6 16 false, engine := boundedDeflate 4 5 0 0 },
        { fields := compressorAt 4 2 16 false, engine := boundedDeflate 4 5 0 11 }]
      zeroStream
      (by
        intro c hc
        simp only [List.mem_cons, List.mem_singleton, List.not_mem_nil, or_false] at hc
        rcases hc with rfl | rfl
        · exact ⟨boundedDeflate_accounts 4 5 0 0,
            boundedDeflate_forward 4 5 0 0 (by decide) (by decide), by decide⟩
        · exact ⟨boundedDeflate_accounts 4 5 0 11,
            boundedDeflate_forward 4 5 0 11 (by decide) (by decide), by decide⟩)
      (by decide),
    (C8_conservation_over_progress_calls isalDeflateCodes isalInflateCodes).2
      [{ fields := decompressorAt 0 6 16 false, engine := boundedInflate 4 5 0 0 },
        { fields := decompressorAt 4 2 16 false, engine := boundedInflate 4 5 1 5 }]
      zeroState
      (by
        intro d hd
        simp only [List.mem_cons, List.mem_singleton, List.not_mem_nil, or_false] at hd
        rcases hd with rfl | rfl
        · exact ⟨boundedInflate_accounts 4 5 0 0,
            boundedInflate_forward 4 5 0 0 (by decide) (by decide), by decide⟩
        · exact ⟨boundedInflate_accounts 4 5 1 5,
            boundedInflate_forward 4 5 1 5 (by decide) (by decide), by decide⟩)
      (by decide)⟩

/-! ## Sequences of calls: the input offset -/

/-- One compressor call on the windows of Java buffers, with an engine step that
moves its cursors forward only, leaves the input offset where it was or further. -/
theorem compress_call_offset_mono (K : DeflateCodes)
    (engine : isal_zstream → Int × isal_zstream) (thisj : IsalCompressor)
    (hfw : DeflateInputForward engine) (hw : CompressInputWindow thisj) :
    thisj.uncompressedDirectBufOff
      ≤ (compressBytesDirect K engine thisj).obj.uncompressedDirectBufOff := by
  obtain ⟨w1, w2, w3⟩ := hw
  cases hs : thisj.stream with
  | none => simp [compressBytesDirect, hs]
  | some s =>
    by_cases hin : thisj.uncompressedDirectBuf = 0
    · simp [compressBytesDirect, hs, hin]
    by_cases hout : thisj.compressedDirectBuf = 0
    · simp [compressBytesDirect, hs, hin, hout]
    have hF := hfw (recalibrateDeflate thisj s)
    have e1 : (recalibrateDeflate thisj s).avail_in = thisj.uncompressedDirectBufLen := by
      simp only [recalibrateDeflate]
      exact toU32_of_nonneg _ w2 (by omega)
    rw [e1] at hF
    obtain ⟨f1, f2⟩ := hF w2
    simp only [compressBytesDirect, hs, hin, hout, if_false, compressSwitch]
    split_ifs
    · simp only [offset_expr]
      rw [toJint_of_inJint _ (by unfold InJint; omega)]
      omega
    all_goals simp

/-- One decompressor call on the windows of Java buffers, with an engine step that
moves its cursors forward only, leaves the input offset where it was or further. -/
theorem inflate_call_offset_mono (K : InflateCodes)
    (engine : inflate_state → Int × inflate_state) (thisj : IsalDecompressor)
    (hfw : InflateInputForward engine) (hw : InflateInputWindow thisj) :
    thisj.compressedDirectBufOff
      ≤ (inflateBytesDirect K engine thisj).obj.compressedDirectBufOff := by
  obtain ⟨w1, w2, w3⟩ := hw
  cases hs : thisj.stream with
  | none => simp [inflateBytesDirect, hs]
  | some s =>
    by_cases hin : thisj.compressedDirectBuf = 0
    · simp [inflateBytesDirect, hs, hin]
    have hF := hfw (recalibrateInflate thisj s)
    have e1 : (recalibrateInflate thisj s).avail_in = thisj.compressedDirectBufLen := by
      simp only [recalibrateInflate]
      exact toU32_of_nonneg _ w2 (by omega)
    rw [e1] at hF
    obtain ⟨f1, f2⟩ := hF w2
    have key : thisj.compressedDirectBufOff
        ≤ toJint (thisj.compressedDirectBufOff + (thisj.compressedDirectBufLen
            - (engine (recalibrateInflate thisj s)).2.avail_in)) := by
      rw [toJint_of_inJint _ (by unfold InJint; omega)]
      omega
    simp only [inflateBytesDirect, hs, hin, if_false, inflateSwitch, inflateProgress,
      offset_expr]
    split_ifs <;> first | exact key | simp

/-- C9 (counterexample): an engine step that returns `COMP_OK` (resp.
`ISAL_DECOMP_OK`) and reports 5 bytes of input left after it was handed an empty
window: the call moves the input offset from 10 back to 5. -/
theorem C9_offset_decreases_when_engine_returns_input :
    (compressorAt 10 0 16 false).uncompressedDirectBufOff = 10 ∧
      (compressBytesDirect isalDeflateCodes (growingDeflate 5 0 0)
        (compressorAt 10 0 16 false)).obj.uncompressedDirectBufOff = 5 ∧
      (decompressorAt 10 0 16 false).compressedDirectBufOff = 10 ∧
      (inflateBytesDirect isalInflateCodes (growingInflate 5 0 0)
        (decompressorAt 10 0 16 false)).obj.compressedDirectBufOff = 5 := by
  decide

/-- C9 (amended): offset monotonicity for engines that move their cursors forward
only. In every sequence of `compressBytesDirect` calls (resp. `inflateBytesDirect`
calls) on input windows of Java buffers, whose engine steps leave `avail_in`
between `0` and what they were handed, every call advances the input
offset by an amount that is not negative, for every status the engine returns. -/
theorem C9_offset_monotone_for_forward_engines (K : DeflateCodes) (L : InflateCodes) :
    (∀ (cs : List CompressCall) (st : Option isal_zstream),
      (∀ c ∈ cs, DeflateInputForward c.engine ∧ CompressInputWindow c.fields) →
      ∀ r ∈ (compressCalls K cs st).2, 0 ≤ r.advanced) ∧
    (∀ (ds : List InflateCall) (st : Option inflate_state),
      (∀ d ∈ ds, InflateInputForward d.engine ∧ InflateInputWindow d.fields) →
      ∀ r ∈ (inflateCalls L ds st).2, 0 ≤ r.advanced) := by
  constructor
  · intro cs
    induction cs with
    | nil =>
      intro st _ r hr
      simp [compressCalls] at hr
    | cons c cs ih =>
      intro st hc r hr
      obtain ⟨hfw, hw⟩ := hc c (List.mem_cons_self _ _)
      have hw1 : CompressInputWindow { c.fields with stream := st } := hw
      have hmono := compress_call_offset_mono K c.engine { c.fields with stream := st }
        hfw hw1
      simp only [compressCalls, List.mem_cons] at hr
      rcases hr with rfl | hr
      · exact Int.sub_nonneg_of_le hmono
      · exact ih _ (fun c1 hmem => hc c1 (List.mem_cons_of_mem _ hmem)) r hr
  · intro ds
    induction ds with
    | nil =>
      intro st _ r hr
      simp [inflateCalls] at hr
    | cons d ds ih =>
      intro st hd r hr
      obtain ⟨hfw, hw⟩ := hd d (List.mem_cons_self _ _)
      have hw1 : InflateInputWindow { d.fields with stream := st } := hw
      have hmono := inflate_call_offset_mono L d.engine { d.fields with stream := st }
        hfw hw1
      simp only [inflateCalls, List.mem_cons] at hr
      rcases hr with rfl | hr
      · exact Int.sub_nonneg_of_le hmono
      · exact ih _ (fun d1 hmem => hd d1 (List.mem_cons_of_mem _ hmem)) r hr

/-- Witness of C9 (amended): two compressor calls, and two decompressor calls, on the
windows `(0, 6)` and `(4, 2)`, the first with a progress status, the second with an
error status. -/
theorem C9_offset_monotone_for_forward_engines_witness :
    (∀ r ∈ (compressCalls isalDeflateCodes
        [{ fields := compressorAt 0 6 16 false, engine := boundedDeflate 4 5 0 0 },
          { fields := compressorAt 4 2 16 false, engine := boundedDeflate 4 5 (-4) 0 }]
        (some zeroStream)).2, 0 ≤ r.advanced) ∧
    (∀ r ∈ (inflateCalls isalInflateCodes
        [{ fields := decompressorAt 0 6 16 false, engine := boundedInflate 4 5 0 0 },
          { fields := decompressorAt 4 2 16 false, engine := boundedInflate 4 5 (-1) 0 }]
        (some zeroState)).2, 0 ≤ r.advanced) :=
  ⟨(C9_offset_monotone_for_forward_engines isalDeflateCodes isalInflateCodes).1
      [{ fields := compressorAt 0 6 16 false, engine := boundedDeflate 4 5 0 0 },
        { fields := compressorAt 4 2 16 false, engine := boundedDeflate 4 5 (-4) 0 }]
      (some zeroStream)
      (by
        intro c hc
        simp only [List.mem_cons, List.mem_singleton, List.not_mem_nil, or_false] at hc
        rcases hc with rfl | rfl
        · exact ⟨(boundedDeflate_forward 4 5 0 0 (by decide) (by decide)).1, by decide⟩
        · exact ⟨(boundedDeflate_forward 4 5 (-4) 0 (by decide) (by decide)).1, by decide⟩),
    (C9_offset_monotone_for_forward_engines isalDeflateCodes isalInflateCodes).2
      [{ fields := decompressorAt 0 6 16 false, engine := boundedInflate 4 5 0 0 },
        { fields := decompressorAt 4 2 16 false, engine := boundedInflate 4 5 (-1) 0 }]
      (some zeroState)
      (by
        intro d hd
        simp only [List.mem_cons, List.mem_singleton, List.not_mem_nil, or_false] at hd
        rcases hd with rfl | rfl
        · exact ⟨(boundedInflate_forward 4 5 0 0 (by decide) (by decide)).1, by decide⟩
        · exact ⟨(boundedInflate_forward 4 5 (-1) 0 (by decide) (by decide)).1, by decide⟩)⟩

/-! ## Empty output window -/

/-- C10 (counterexample): with output capacity `0`, an engine step that returns
`COMP_OK` (resp. `ISAL_DECOMP_OK`), consumes nothing and reports 3 bytes of output
space left makes the call return `-3`, with no exception pending. -/
theorem C10_zero_capacity_returns_nonzero :
    (compressorAt 0 6 0 false).BufferSize = 0 ∧
      (compressBytesDirect isalDeflateCodes (growingDeflate 0 3 0)
        (compressorAt 0 6 0 false)).ret = -3 ∧
      (compressBytesDirect isalDeflateCodes (growingDeflate 0 3 0)
        (compressorAt 0 6 0 false)).exc = none ∧
      (decompressorAt 0 6 0 false).directBufferSize = 0 ∧
      (inflateBytesDirect isalInflateCodes (growingInflate 0 3 0)
        (decompressorAt 0 6 0 false)).ret = -3 ∧
      (inflateBytesDirect isalInflateCodes (growingInflate 0 3 0)
        (decompressorAt 0 6 0 false)).exc = none := by
  decide

/-- C10 (amended): a call with output capacity `0` returns `0` for every session
state, input window and engine status, provided the engine step that is handed
`avail_out = 0` leaves `avail_out = 0`. -/
theorem C10_zero_capacity_returns_zero (K : DeflateCodes) (L : InflateCodes)
    (dlsym_isal_deflate : isal_zstream → Int × isal_zstream)
    (dlsym_isal_inflate : inflate_state → Int × inflate_state)
    (c : IsalCompressor) (d : IsalDecompressor)
    (hdeflate : ∀ s : isal_zstream, s.avail_out = 0 → (dlsym_isal_deflate s).2.avail_out = 0)
    (hinflate : ∀ s : inflate_state, s.avail_out = 0 → (dlsym_isal_inflate s).2.avail_out = 0) :
    (c.BufferSize = 0 → (compressBytesDirect K dlsym_isal_deflate c).ret = 0) ∧
    (d.directBufferSize = 0 → (inflateBytesDirect L dlsym_isal_inflate d).ret = 0) := by
  constructor
  · intro hcap
    cases hs : c.stream with
    | none => simp [compressBytesDirect, hs]
    | some s =>
      by_cases hin : c.uncompressedDirectBuf = 0
      · simp [compressBytesDirect, hs, hin]
      by_cases hout : c.compressedDirectBuf = 0
      · simp [compressBytesDirect, hs, hin, hout]
      have h0 := hdeflate (recalibrateDeflate c s) (by simp [recalibrateDeflate, hcap, toU32])
      simp only [compressBytesDirect, hs, hin, hout, if_false, compressSwitch]
      split_ifs <;> simp [h0, hcap, toJint, toU32]
  · intro hcap
    cases hs : d.stream with
    | none => simp [inflateBytesDirect, hs]
    | some s =>
      by_cases hin : d.compressedDirectBuf = 0
      · simp [inflateBytesDirect, hs, hin]
      have h0 := hinflate (recalibrateInflate d s) (by simp [recalibrateInflate, hcap, toU32])
      simp only [inflateBytesDirect, hs, hin, if_false, inflateSwitch, inflateProgress]
      split_ifs <;> simp [h0, hcap, toJint, toU32]

/-- Witness of C10 (amended): output capacity `0` and engine steps that would produce
up to 5 bytes. -/
theorem C10_zero_capacity_returns_zero_witness :
    (compressBytesDirect isalDeflateCodes (boundedDeflate 4 5 0 0)
        (compressorAt 0 6 0 false)).ret = 0 ∧
      (inflateBytesDirect isalInflateCodes (boundedInflate 4 5 0 0)
        (decompressorAt 0 6 0 false)).ret = 0 :=
  ⟨(C10_zero_capacity_returns_zero isalDeflateCodes isalInflateCodes (boundedDeflate 4 5 0 0)
      (boundedInflate 4 5 0 0) (compressorAt 0 6 0 false) (decompressorAt 0 6 0 false)
      (by intro s h; simp [boundedDeflate, h]) (by intro s h; simp [boundedInflate, h])).1 rfl,
    (C10_zero_capacity_returns_zero isalDeflateCodes isalInflateCodes (boundedDeflate 4 5 0 0)
      (boundedInflate 4 5 0 0) (compressorAt 0 6 0 false) (decompressorAt 0 6 0 false)
      (by intro s h; simp [boundedDeflate, h]) (by intro s h; simp [boundedInflate, h])).2 rfl⟩

/-! ## Creating and resetting the compressor -/

/-- What `init` returns holds the configuration passed to it, whatever the engine's
initialisation wrote. -/
theorem init_stores_config (LVL1 : Int) (dinit : isal_zstream → isal_zstream)
    (malloc_stream : Option isal_zstream) (malloc_level_buf level flush gzip_flag : Int)
    (s0 : isal_zstream) (exc : Option JavaException)
    (h : init LVL1 dinit malloc_stream malloc_level_buf level flush gzip_flag
      = InitOutcome.returned (some s0) exc) :
    s0.level = level ∧ s0.flush = flush ∧ s0.gzip_flag = gzip_flag := by
  unfold init at h
  cases malloc_stream with
  | none => simp [THROW] at h
  | some g =>
    simp only at h
    split_ifs at h with h1 h2
    · simp only [InitOutcome.returned.injEq, Option.some.injEq] at h
      obtain ⟨rfl, _⟩ := h
      exact ⟨rfl, rfl, rfl⟩
    · simp only [InitOutcome.returned.injEq, Option.some.injEq] at h
      obtain ⟨rfl, _⟩ := h
      exact ⟨rfl, rfl, rfl⟩

/-- C11 (the code at the failing input): with an engine initialisation in the manner
of `isal_deflate_init`, `init(1, 2, 1)` returns a stream with `level = 1`,
`flush = 2`, `gzip_flag = 1`, stored after the engine initialisation has run; after
one step whose engine step reaches `ZSTATE_END` and `reset`, which runs the engine
initialisation and does not store them again, the stream holds `level = 0`,
`flush = 0`, `gzip_flag = 0`. The native `reset` writes no field of the object, so
`finished` is as the step left it. -/
theorem C11_reset_loses_config_and_keeps_finished :
    (init 65536 clearingDeflateInit (some zeroStream) 4096 1 2 1).handle.map
        (fun s => (s.level, s.flush, s.gzip_flag)) = some (1, 2, 1) ∧
      ((resetSession clearingDeflateInit
          (compressBytesDirect isalDeflateCodes (boundedDeflate 4 5 0 11)
            { compressorAt 0 6 16 false with
              stream := (init 65536 clearingDeflateInit (some zeroStream) 4096 1 2 1).handle
            }).obj).bind IsalCompressor.stream).map
        (fun s => (s.level, s.flush, s.gzip_flag)) = some (0, 0, 0) ∧
      (resetSession clearingDeflateInit
          (compressBytesDirect isalDeflateCodes (boundedDeflate 4 5 0 11)
            { compressorAt 0 6 16 false with
              stream := (init 65536 clearingDeflateInit (some zeroStream) 4096 1 2 1).handle
            }).obj).map IsalCompressor.finished = some true := by
  decide

/-! ## Creating the decompressor -/

/-- C12: the decompressor's `init` zero-fills the state after the engine's
initialisation has run on it: for every engine initialisation, every content of
the allocated block and every container-format argument, the state it returns is
the all-zero state. That state is the one `reset` (the engine's initialisation
applied in place) produces from it exactly when the engine's initialisation maps
the all-zero state to itself. The compressor's `init` instead returns the engine's
initialisation of the zero-filled stream with `gzip_flag`, `level` and `flush`
stored into it afterwards (for level 1 together with the level buffer and its
size; when that buffer cannot be allocated the process exits). -/
theorem C12_inflate_init_zero_fills_after_engine_init (LVL1 : Int)
    (dlsym_isal_inflate_init : inflate_state → inflate_state)
    (dlsym_isal_deflate_init : isal_zstream → isal_zstream) :
    (∀ (block : inflate_state) (gzip_flag : Int),
      inflateInit dlsym_isal_inflate_init (some block) gzip_flag
        = InitOutcome.returned (some zeroState) none) ∧
    (∀ (block : inflate_state) (gzip_flag : Int) (s0 : inflate_state),
      (inflateInit dlsym_isal_inflate_init (some block) gzip_flag).handle = some s0 →
      (inflateReset dlsym_isal_inflate_init s0 = s0 ↔
        dlsym_isal_inflate_init zeroState = zeroState)) ∧
    (∀ (block : isal_zstream) (malloc_level_buf level flush gzip_flag : Int),
      level ≠ 1 →
      init LVL1 dlsym_isal_deflate_init (some block) malloc_level_buf level flush gzip_flag
        = InitOutcome.returned
            (some { dlsym_isal_deflate_init zeroStream with
              gzip_flag := gzip_flag, level := level, flush := flush }) none) ∧
    (∀ (block : isal_zstream) (malloc_level_buf flush gzip_flag : Int),
      malloc_level_buf ≠ 0 →
      init LVL1 dlsym_isal_deflate_init (some block) malloc_level_buf 1 flush gzip_flag
        = InitOutcome.returned
            (some { dlsym_isal_deflate_init zeroStream with
              level_buf := malloc_level_buf, level_buf_size := LVL1,
              gzip_flag := gzip_flag, level := 1, flush := flush }) none) ∧
    (∀ (block : isal_zstream) (flush gzip_flag : Int),
      init LVL1 dlsym_isal_deflate_init (some block) 0 1 flush gzip_flag
        = InitOutcome.exited) := by
  refine ⟨?_, ?_, ?_, ?_, ?_⟩
  · intro block gzip
    simp [inflateInit, memsetState]
  · intro block gzip s0 h
    simp only [inflateInit, memsetState, InitOutcome.handle, Option.some.injEq] at h
    subst h
    simp [inflateReset]
  · intro block lb level flush gzip hl
    simp [init, memsetStream, hl]
  · intro block lb flush gzip hlb
    simp [init, memsetStream, hlb]
  · intro block flush gzip
    simp [init, memsetStream]

/-- Witness of C12: an engine initialisation that writes `avail_in := 7` and
`block_state := 3` on a block that held other values: the decompressor's `init`
returns the all-zero state, which `reset` changes; the compressor's `init(0, 2, 1)`
and `init(1, 2, 1)` return the initialised zero stream with the configuration
stored. -/
theorem C12_inflate_init_zero_fills_after_engine_init_witness :
    inflateInit markingInflateInit
        (some { zeroState with avail_out := 9, total_out := 5 }) 1
      = InitOutcome.returned (some zeroState) none ∧
    ¬ (inflateReset markingInflateInit zeroState = zeroState) ∧
    init 65536 clearingDeflateInit (some { zeroStream with total_in := 8 }) 4096 0 2 1
      = InitOutcome.returned
          (some { clearingDeflateInit zeroStream with
            gzip_flag := 1, level := 0, flush := 2 }) none ∧
    init 65536 clearingDeflateInit (some { zeroStream with total_in := 8 }) 4096 1 2 1
      = InitOutcome.returned
          (some { clearingDeflateInit zeroStream with
            level_buf := 4096, level_buf_size := 65536, gzip_flag := 1, level := 1,
            flush := 2 }) none :=
  ⟨(C12_inflate_init_zero_fills_after_engine_init 65536 markingInflateInit
      clearingDeflateInit).1 { zeroState with avail_out := 9, total_out := 5 } 1,
    fun h =>
      absurd
        (((C12_inflate_init_zero_fills_after_engine_init 65536 markingInflateInit
          clearingDeflateInit).2.1 { zeroState with avail_out := 9, total_out := 5 } 1
          zeroState rfl).1 h)
        (by decide),
    (C12_inflate_init_zero_fills_after_engine_init 65536 markingInflateInit
      clearingDeflateInit).2.2.1 { zeroStream with total_in := 8 } 4096 0 2 1 (by decide),
    (C12_inflate_init_zero_fills_after_engine_init 65536 markingInflateInit
      clearingDeflateInit).2.2.2.1 { zeroStream with total_in := 8 } 4096 2 1 (by decide)⟩

end Isal
